import Mathlib

/-!
RETROSNAKEGAME: the simulation core of `src/main.cpp`

A shallow embedding of the grid, wall map, snake, food, explosive food and
`Game` classes, and theorems about them.

Modelling conventions.

* `Vector2` and `Rectangle` hold `float`s in the source. Every coordinate the
  simulation stores is a small whole number (cells come from `GetRandomValue`,
  from the reset body and from adding unit directions; pixels are
  `offset + cell * cellSize`), which `float` represents exactly, so they are
  integers here and `Vector2Equals` is equality.
* `int` fields are unbounded integers: signed overflow is undefined behaviour
  in C++ and no operation below comes near the 32-bit range in a real run.
* The pseudo random generator is the list of raw values its successive calls
  return (`Game.rng`). A rejection loop that uses up the list has not ended:
  it yields `Fault.noSample`.
* Reading `body[0]` or popping from an empty deque is undefined behaviour: it
  yields `Fault.emptyBody`.
* The high-score file is the list of values written to it, latest first
  (`Game.highestscoreFile`); whether `fopen("highestscore.txt", "w")` succeeds
  is the input `Game.fileWritable`, read at each call.
* `time(nullptr)` readings are arguments of the functions that read the clock.
* Sounds, textures and drawing have no effect on the simulation state and are
  left out.
-/

namespace RetroSnake

/-! ## Globals -/

/-- Global `int cellSize = 30`. -/
def cellSize : Int := 30

/-- Global `int cellCount = 25`. -/
def cellCount : Int := 25

/-- Global `int offset = 75`. -/
def offset : Int := 75

/-! ## raylib / raymath values -/

/-- The raylib `Vector2`, holding whole numbers. -/
structure Vector2 where
  x : Int
  y : Int
  deriving DecidableEq, Repr

/-- The raylib `Rectangle`, holding whole numbers. -/
structure Rectangle where
  x : Int
  y : Int
  width : Int
  height : Int
  deriving DecidableEq, Repr

/-- The raymath `Vector2Add`. -/
def Vector2Add (v1 v2 : Vector2) : Vector2 :=
  ⟨v1.x + v2.x, v1.y + v2.y⟩

/-- The raymath `Vector2Equals`, on whole-number coordinates. -/
def Vector2Equals (p q : Vector2) : Bool :=
  p.x == q.x && p.y == q.y

/-- The raylib `CheckCollisionRecs`: the open interiors of the rectangles meet. -/
def CheckCollisionRecs (rec1 rec2 : Rectangle) : Bool :=
  (decide (rec1.x < rec2.x + rec2.width) && decide (rec1.x + rec1.width > rec2.x)) &&
  (decide (rec1.y < rec2.y + rec2.height) && decide (rec1.y + rec1.height > rec2.y))

/-- The raylib `GetRandomValue(min, max)` applied to the raw value `raw` of the
generator: a value between `min` and `max`, both included. -/
def GetRandomValue (min max : Int) (raw : Nat) : Int :=
  let lo := if min > max then max else min
  let hi := if min > max then min else max
  lo + ((raw % ((hi - lo).natAbs + 1) : Nat) : Int)

/-- What stops a call from returning. -/
inductive Fault where
  | emptyBody
  | noSample
  deriving DecidableEq, Repr

/-! ## Helper of the source -/

/-- Source `ElementInDeque`: linear scan from index 0. -/
def ElementInDeque (element : Vector2) : List Vector2 → Bool
  | [] => false
  | d :: ds => if Vector2Equals d element then true else ElementInDeque element ds

/-! ## Wall and map -/

/-- Source class `Wall`. -/
structure Wall where
  rect : Rectangle
  deriving DecidableEq, Repr

/-- Source `Wall::CheckCollision`. -/
def Wall.CheckCollision (w : Wall) (target : Rectangle) : Bool :=
  CheckCollisionRecs w.rect target

/-- Source class `MapBase`. -/
structure MapBase where
  walls : List Wall
  blockSize : Int
  deriving DecidableEq, Repr

/-- Source `MapBase::CheckCollision`: probe of `blockSize` by `blockSize` at `point`. -/
def MapBase.CheckCollision (m : MapBase) (point : Vector2) : Bool :=
  let testRect : Rectangle := ⟨point.x, point.y, m.blockSize, m.blockSize⟩
  m.walls.any (fun wall => wall.CheckCollision testRect)

/-- Source `MapBase::CheckCollisionWithRect`. -/
def MapBase.CheckCollisionWithRect (m : MapBase) (rect : Rectangle) : Bool :=
  m.walls.any (fun wall => wall.CheckCollision rect)

/-- Source `HardModeMap::LoadWalls`. -/
def HardModeMap.LoadWalls (blockSize : Int) : List Wall :=
  [ ⟨⟨offset + 3 * blockSize, offset + 1 * blockSize, blockSize, 10 * blockSize⟩⟩,
    ⟨⟨offset + 3 * blockSize, offset + 12 * blockSize, 8 * blockSize, blockSize⟩⟩,
    ⟨⟨offset + 19 * blockSize, offset + 1 * blockSize, blockSize, 10 * blockSize⟩⟩,
    ⟨⟨offset + 11 * blockSize, offset + 18 * blockSize, 8 * blockSize, blockSize⟩⟩ ]

/-- Source constructor `HardModeMap(blockSize)`. -/
def HardModeMap (blockSize : Int) : MapBase :=
  { walls := HardModeMap.LoadWalls blockSize, blockSize := blockSize }

/-! ## Food -/

/-- Source class `Food` (position and map pointer). -/
structure Food where
  position : Vector2
  map : Option MapBase
  deriving DecidableEq, Repr

/-- The cell that `GenerateRandomCell` / `GenerateRandomCellStatic` builds from
two successive raw values, `x` first. -/
def randomCell (rx ry : Nat) : Vector2 :=
  ⟨GetRandomValue 0 (cellCount - 1) rx, GetRandomValue 0 (cellCount - 1) ry⟩

/-- The loop condition of `GenerateRandomPos` and `GenerateRandomPosStatic`:
`ElementInDeque(position, snakeBody) || (map && map->CheckCollision(...))`. -/
def rejected (map : Option MapBase) (snakeBody : List Vector2) (position : Vector2) : Bool :=
  ElementInDeque position snakeBody ||
    (match map with
     | none => false
     | some m => m.CheckCollision ⟨offset + position.x * cellSize, offset + position.y * cellSize⟩)

/-- Source `Food::GenerateRandomPos`: returns the position and the raw values left. -/
def Food.GenerateRandomPos (food : Food) (snakeBody : List Vector2) :
    List Nat → Except Fault (Vector2 × List Nat)
  | rx :: ry :: rest =>
    if rejected food.map snakeBody (randomCell rx ry) then
      Food.GenerateRandomPos food snakeBody rest
    else
      .ok (randomCell rx ry, rest)
  | _ => .error Fault.noSample

/-- Source `Food::GenerateRandomPosStatic`. -/
def Food.GenerateRandomPosStatic (snakeBody : List Vector2) (map : Option MapBase) :
    List Nat → Except Fault (Vector2 × List Nat)
  | rx :: ry :: rest =>
    if rejected map snakeBody (randomCell rx ry) then
      Food.GenerateRandomPosStatic snakeBody map rest
    else
      .ok (randomCell rx ry, rest)
  | _ => .error Fault.noSample

/-- The cells that successive calls of `GenerateRandomCell` draw from the raw values. -/
def sampledCells : List Nat → List Vector2
  | rx :: ry :: rest => randomCell rx ry :: sampledCells rest
  | _ => []

/-! ## Explosive food -/

/-- Source class `ExplosiveFood`; `duration` and `basePoints` are the constants below. -/
structure ExplosiveFood where
  map : Option MapBase
  position : Vector2
  points : Int
  spawnTime : Int
  isActive : Bool
  deriving DecidableEq, Repr

/-- Source `const int duration = 7`. -/
def ExplosiveFood.duration : Int := 7

/-- Source `const int basePoints = 100`. -/
def ExplosiveFood.basePoints : Int := 100

/-- Source constructor `ExplosiveFood(map)`. -/
def ExplosiveFood.new (map : Option MapBase) : ExplosiveFood :=
  { map := map, position := ⟨0, 0⟩, points := ExplosiveFood.basePoints, spawnTime := 0,
    isActive := false }

/-- Source `ExplosiveFood::shouldSpawn`; `%` of C++ truncates toward zero. -/
def ExplosiveFood.shouldSpawn (e : ExplosiveFood) (foodEatenCount : Int) : Bool :=
  Int.tmod foodEatenCount 5 == 0 && !e.isActive

/-- Source `ExplosiveFood::spawn`; `now` is the reading of `time(nullptr)`. -/
def ExplosiveFood.spawn (e : ExplosiveFood) (snakeBody : List Vector2) (now : Int)
    (rng : List Nat) : Except Fault (ExplosiveFood × List Nat) :=
  match Food.GenerateRandomPosStatic snakeBody e.map rng with
  | .error f => .error f
  | .ok (position, rest) =>
    .ok ({ e with position := position, points := ExplosiveFood.basePoints, spawnTime := now,
                  isActive := true }, rest)

/-- The value `(int)(basePoints * pow(0.9, elapsedTime))` for a whole number of
elapsed seconds: the real number `100 * 0.9 ^ elapsedTime` truncated. -/
def ExplosiveFood.decayedPoints (elapsedTime : Int) : Int :=
  match elapsedTime with
  | Int.ofNat n => ((ExplosiveFood.basePoints.toNat * 9 ^ n / 10 ^ n : Nat) : Int)
  | Int.negSucc n => ((ExplosiveFood.basePoints.toNat * 10 ^ (n + 1) / 9 ^ (n + 1) : Nat) : Int)

/-- Source `ExplosiveFood::update`; `now` is the reading of `time(nullptr)`. -/
def ExplosiveFood.update (e : ExplosiveFood) (now : Int) : ExplosiveFood :=
  if !e.isActive then e
  else
    let elapsedTime := now - e.spawnTime
    let e1 := { e with points := ExplosiveFood.decayedPoints elapsedTime }
    if elapsedTime >= ExplosiveFood.duration then { e1 with isActive := false } else e1

/-- Source `ExplosiveFood::eat`. -/
def ExplosiveFood.eat (e : ExplosiveFood) : ExplosiveFood :=
  { e with isActive := false }

/-! ## Snake -/

/-- Source class `Snake`. -/
structure Snake where
  body : List Vector2
  direction : Vector2
  addSegment : Bool
  deriving DecidableEq, Repr

/-- The initial (and reset) body of the snake. -/
def Snake.startBody : List Vector2 := [⟨6, 9⟩, ⟨5, 9⟩, ⟨4, 9⟩]

/-- The field initialisers of `Snake`. -/
def Snake.new : Snake :=
  { body := Snake.startBody, direction := ⟨1, 0⟩, addSegment := false }

/-- Source `Snake::Update`. -/
def Snake.Update (s : Snake) : Except Fault Snake :=
  match s.body with
  | [] => .error Fault.emptyBody
  | head :: _ =>
    let body := Vector2Add head s.direction :: s.body
    if s.addSegment == true then
      .ok { s with body := body, addSegment := false }
    else
      .ok { s with body := body.dropLast }

/-- Source `Snake::Reset`. -/
def Snake.Reset (s : Snake) : Snake :=
  { s with body := Snake.startBody, direction := ⟨1, 0⟩ }

/-! ## Game -/

/-- Source class `Game`, with the generator and the high-score file it acts on. -/
structure Game where
  snake : Snake
  food : Food
  explosiveFood : ExplosiveFood
  hardMap : Option MapBase
  running : Bool
  score : Int
  highestscore : Int
  foodEatenCount : Int
  gameovermenu : Bool
  rng : List Nat
  highestscoreFile : List Int
  fileWritable : Bool
  deriving DecidableEq, Repr

/-- Source `Game::savehighestscore`: when the file opens for writing the value
is written; otherwise only an error message is printed. -/
def Game.savehighestscore (g : Game) : Game :=
  if g.fileWritable then
    { g with highestscoreFile := g.highestscore :: g.highestscoreFile }
  else g

/-- Source `Game::loadhighestscore`: an absent file (no value written yet) is
created holding 0. -/
def Game.loadhighestscore (g : Game) : Game :=
  match g.highestscoreFile with
  | [] =>
    if g.fileWritable then { g with highestscoreFile := [0], highestscore := 0 }
    else { g with highestscore := 0 }
  | stored :: _ => { g with highestscore := stored }

/-- Source constructor `Game()`: `food(snake.body, nullptr)`, `explosiveFood(nullptr)`,
then `highestscore = loadhighestscore()`. -/
def Game.new (file : List Int) (writable : Bool) (rng : List Nat) : Except Fault Game :=
  match Food.GenerateRandomPos ⟨⟨0, 0⟩, none⟩ Snake.new.body rng with
  | .error f => .error f
  | .ok (position, rest) =>
    .ok (Game.loadhighestscore
      { snake := Snake.new, food := ⟨position, none⟩, explosiveFood := ExplosiveFood.new none,
        hardMap := none, running := false, score := 0, highestscore := 0,
        foodEatenCount := 0, gameovermenu := false, rng := rest, highestscoreFile := file,
        fileWritable := writable })

/-- Source `Game::InitializeHardMode`. -/
def Game.InitializeHardMode (g : Game) : Except Fault Game :=
  let hardMap := match g.hardMap with
    | none => some (HardModeMap cellSize)
    | some m => some m
  let food : Food := { g.food with map := hardMap }
  match food.GenerateRandomPos g.snake.body g.rng with
  | .error f => .error f
  | .ok (position, rest) =>
    .ok { g with hardMap := hardMap, food := { food with position := position },
                 explosiveFood := ({ g.explosiveFood with map := hardMap }).eat, rng := rest }

/-- Source `Game::DisableHardMode`. -/
def Game.DisableHardMode (g : Game) : Except Fault Game :=
  let food : Food := { g.food with map := none }
  match food.GenerateRandomPos g.snake.body g.rng with
  | .error f => .error f
  | .ok (position, rest) =>
    .ok { g with hardMap := none, food := { food with position := position },
                 explosiveFood := ({ g.explosiveFood with map := none }).eat, rng := rest }

/-- Source `Game::resetScores`. -/
def Game.resetScores (g : Game) : Game :=
  Game.savehighestscore { g with score := 0, highestscore := 0, foodEatenCount := 0 }

/-- Source `Game::resetCurrentScore`. -/
def Game.resetCurrentScore (g : Game) : Game :=
  { g with score := 0, foodEatenCount := 0 }

/-- The Exit action of the main menu (button or ENTER): `game.resetScores();`
before `shouldExit = true`. -/
def Game.exitAction (g : Game) : Game :=
  g.resetScores

/-- The first two statements of every return to the main menu (BACK of the
difficulty screen, MENU of the pause and game-over screens):
`game.resetScores(); game.DisableHardMode();`. -/
def Game.backToMenu (g : Game) : Except Fault Game :=
  g.resetScores.DisableHardMode

/-- The bounds test of `CheckCollisionWithEdges` on the head cell. -/
def outOfGrid (head : Vector2) : Bool :=
  decide (head.x >= cellCount) || decide (head.x < 0) ||
    decide (head.y >= cellCount) || decide (head.y < 0)

/-- The rectangle `snakeHead` of `CheckCollisionWithEdges`. -/
def headRect (head : Vector2) : Rectangle :=
  ⟨offset + head.x * cellSize, offset + head.y * cellSize, cellSize, cellSize⟩

/-- Source `Game::GameOver`. -/
def Game.GameOver (g : Game) : Except Fault Game :=
  let g1 := if g.score > g.highestscore then
      Game.savehighestscore { g with highestscore := g.score }
    else g
  let snake := g1.snake.Reset
  match g1.food.GenerateRandomPos snake.body g1.rng with
  | .error f => .error f
  | .ok (position, rest) =>
    .ok { g1 with snake := snake, food := { g1.food with position := position },
                  explosiveFood := g1.explosiveFood.eat, running := false,
                  gameovermenu := true, rng := rest }

/-- Source `Game::CheckCollisionWithFood`; `now` is the clock reading of `spawn`. -/
def Game.CheckCollisionWithFood (now : Int) (g : Game) : Except Fault Game :=
  match g.snake.body with
  | [] => .error Fault.emptyBody
  | head :: _ =>
    if Vector2Equals head g.food.position then
      match g.food.GenerateRandomPos g.snake.body g.rng with
      | .error f => .error f
      | .ok (position, rest) =>
        let g1 := { g with food := { g.food with position := position },
                           snake := { g.snake with addSegment := true },
                           score := g.score + 1, foodEatenCount := g.foodEatenCount + 1,
                           rng := rest }
        if g1.explosiveFood.shouldSpawn g1.foodEatenCount then
          match g1.explosiveFood.spawn g1.snake.body now g1.rng with
          | .error f => .error f
          | .ok (e, rest1) => .ok { g1 with explosiveFood := e, rng := rest1 }
        else .ok g1
    else .ok g

/-- Source `Game::CheckCollisionWithExplosiveFood`. -/
def Game.CheckCollisionWithExplosiveFood (g : Game) : Except Fault Game :=
  if g.explosiveFood.isActive then
    match g.snake.body with
    | [] => .error Fault.emptyBody
    | head :: _ =>
      if Vector2Equals head g.explosiveFood.position then
        .ok { g with score := g.score + g.explosiveFood.points,
                     explosiveFood := g.explosiveFood.eat,
                     snake := { g.snake with addSegment := true } }
      else .ok g
  else .ok g

/-- The first block of `CheckCollisionWithEdges`: `if (!isHardMode || !hardMap)`. -/
def Game.edgesEasyBlock (isHardMode : Bool) (g : Game) : Except Fault Game :=
  if !isHardMode || g.hardMap.isNone then
    match g.snake.body with
    | [] => .error Fault.emptyBody
    | head :: _ => if outOfGrid head then g.GameOver else .ok g
  else .ok g

/-- The second block of `CheckCollisionWithEdges`: `if (hardMap)`. -/
def Game.edgesHardBlock (g : Game) : Except Fault Game :=
  match g.hardMap with
  | none => .ok g
  | some m =>
    match g.snake.body with
    | [] => .error Fault.emptyBody
    | head :: _ =>
      if m.CheckCollisionWithRect (headRect head) || outOfGrid head then g.GameOver else .ok g

/-- Source `Game::CheckCollisionWithEdges`; `isHardMode` is the global flag. -/
def Game.CheckCollisionWithEdges (isHardMode : Bool) (g : Game) : Except Fault Game :=
  match Game.edgesEasyBlock isHardMode g with
  | .error f => .error f
  | .ok g1 => Game.edgesHardBlock g1

/-- Source `Game::CheckCollisionWithTail`. -/
def Game.CheckCollisionWithTail (g : Game) : Except Fault Game :=
  match g.snake.body with
  | [] => .error Fault.emptyBody
  | head :: headlessBody =>
    if ElementInDeque head headlessBody then g.GameOver else .ok g

/-- Source `Game::Update`; `isHardMode` is the global flag, `tUpdate` and
`tSpawn` the clock readings of `explosiveFood.update` and `explosiveFood.spawn`. -/
def Game.Update (isHardMode : Bool) (tUpdate tSpawn : Int) (g : Game) : Except Fault Game :=
  if g.running then
    match g.snake.Update with
    | .error f => .error f
    | .ok snake =>
      let g1 := { g with snake := snake }
      let g2 := { g1 with explosiveFood := g1.explosiveFood.update tUpdate }
      match Game.CheckCollisionWithFood tSpawn g2 with
      | .error f => .error f
      | .ok g3 =>
        match Game.CheckCollisionWithExplosiveFood g3 with
        | .error f => .error f
        | .ok g4 =>
          match Game.CheckCollisionWithEdges isHardMode g4 with
          | .error f => .error f
          | .ok g5 => Game.CheckCollisionWithTail g5
  else .ok g

/-! ## Direction input of the GAME screen (`main`) -/

/-- The arrow keys for which `IsKeyPressed` is true in a frame. -/
structure Keys where
  up : Bool
  down : Bool
  left : Bool
  right : Bool
  deriving DecidableEq, Repr

/-- What the four input statements act on: `game.snake.direction`, the global
`allowMove`, and a count of the statements whose body ran (the accepted keys). -/
structure InputState where
  direction : Vector2
  allowMove : Bool
  accepted : Nat
  deriving DecidableEq, Repr

/-- One statement `if (IsKeyPressed(KEY) && <direction test> && allowMove)
{ game.snake.direction = heading; allowMove = false; }`. -/
def acceptKey (pressed : Bool) (directionTest : Bool) (heading : Vector2)
    (st : InputState) : InputState :=
  if pressed && directionTest && st.allowMove then
    { direction := heading, allowMove := false, accepted := st.accepted + 1 }
  else st

/-- The four input statements of the GAME screen, in source order:
UP, DOWN, LEFT, RIGHT. -/
def directionInput (keys : Keys) (st : InputState) : InputState :=
  let st1 := acceptKey keys.up (st.direction.y != 1) ⟨0, -1⟩ st
  let st2 := acceptKey keys.down (st1.direction.y != -1) ⟨0, 1⟩ st1
  let st3 := acceptKey keys.left (st2.direction.x != 1) ⟨-1, 0⟩ st2
  acceptKey keys.right (st3.direction.x != -1) ⟨1, 0⟩ st3

/-- The game with the globals `allowMove` and `isHardMode`. -/
structure Session where
  game : Game
  allowMove : Bool
  isHardMode : Bool
  deriving DecidableEq, Repr

/-- The direction input of one frame applied to the session. -/
def Session.handleInput (keys : Keys) (s : Session) : Session :=
  let st := directionInput keys ⟨s.game.snake.direction, s.allowMove, 0⟩
  { s with game := { s.game with snake := { s.game.snake with direction := st.direction } },
           allowMove := st.allowMove }

/-- One frame of the GAME screen up to the direction input: when
`EventTriggered(gameSpeed)` holds (`tick` gives the clock readings of the
update), `allowMove = true; game.Update();`, then the four input statements. -/
def Session.gameScreenFrame (tick : Option (Int × Int)) (keys : Keys) (s : Session) :
    Except Fault Session :=
  match tick with
  | none => .ok (s.handleInput keys)
  | some (tUpdate, tSpawn) =>
    match Game.Update s.isHardMode tUpdate tSpawn s.game with
    | .error f => .error f
    | .ok g => .ok (Session.handleInput keys { s with allowMove := true, game := g })

/-- The RESTART action of the game-over screen (`main`):
`if (isHardMode) game.InitializeHardMode(); else game.DisableHardMode();
game.snake.Reset(); game.food.position = game.food.GenerateRandomPos(game.snake.body);
game.explosiveFood.eat(); game.resetCurrentScore(); game.running = true;
game.gameovermenu = false; allowMove = true;`. -/
def Session.restart (s : Session) : Except Fault Session :=
  match (if s.isHardMode then s.game.InitializeHardMode else s.game.DisableHardMode) with
  | .error f => .error f
  | .ok g1 =>
    let g2 := { g1 with snake := g1.snake.Reset }
    match g2.food.GenerateRandomPos g2.snake.body g2.rng with
    | .error f => .error f
    | .ok (position, rest) =>
      let g3 := { g2 with food := { g2.food with position := position }, rng := rest,
                          explosiveFood := g2.explosiveFood.eat }
      .ok { s with game := { g3.resetCurrentScore with running := true, gameovermenu := false },
                   allowMove := true }

/-! ## Concrete states used by the examples -/

/-- A running easy-mode state at the start of a run: start snake, food at
`foodAt`, explosive food inactive, no map, score 0. -/
def easyRun (foodAt : Vector2) (rng : List Nat) : Game :=
  { snake := Snake.new, food := ⟨foodAt, none⟩, explosiveFood := ExplosiveFood.new none,
    hardMap := none, running := true, score := 0, highestscore := 0, foodEatenCount := 0,
    gameovermenu := false, rng := rng, highestscoreFile := [],
    fileWritable := true }

/-- A running hard-mode state at the start of a run: as `easyRun`, with the
hard-mode map installed as `InitializeHardMode` does. -/
def hardRun (foodAt : Vector2) (rng : List Nat) : Game :=
  { snake := Snake.new, food := ⟨foodAt, some (HardModeMap cellSize)⟩,
    explosiveFood := ExplosiveFood.new (some (HardModeMap cellSize)),
    hardMap := some (HardModeMap cellSize), running := true, score := 0, highestscore := 0,
    foodEatenCount := 0, gameovermenu := false, rng := rng, highestscoreFile := [],
    fileWritable := true }

/-- The self-collision scenario of the spec: body [(5,5),(4,5),(3,5),(4,5)],
head at index 0, in a running easy-mode game. -/
def selfCollisionScenario : Game :=
  { easyRun ⟨7, 9⟩ [10, 12] with
    snake := { body := [⟨5, 5⟩, ⟨4, 5⟩, ⟨3, 5⟩, ⟨4, 5⟩], direction := ⟨1, 0⟩,
               addSegment := false } }

/-- A start of run in easy mode whose samples put the food on the snake's
path five times and then give the cell (12,9) twice. -/
def coincideStart : Game :=
  easyRun ⟨7, 9⟩ [8, 9, 9, 9, 10, 9, 11, 9, 12, 9, 12, 9, 3, 4]

/-- The state after five ticks from `coincideStart`: the fifth food was eaten
at time 1000, the food and the explosive food both went to (12,9). -/
def coincideState : Game :=
  { snake := { body := [⟨11, 9⟩, ⟨10, 9⟩, ⟨9, 9⟩, ⟨8, 9⟩, ⟨7, 9⟩, ⟨6, 9⟩, ⟨5, 9⟩],
               direction := ⟨1, 0⟩, addSegment := true },
    food := ⟨⟨12, 9⟩, none⟩,
    explosiveFood := { map := none, position := ⟨12, 9⟩, points := 100, spawnTime := 1000,
                       isActive := true },
    hardMap := none, running := true, score := 5, highestscore := 0, foodEatenCount := 5,
    gameovermenu := false, rng := [3, 4], highestscoreFile := [], fileWritable := true }

/-- The state after the sixth tick, at time 1001: both pickups happened. -/
def coincideAfter : Game :=
  { snake := { body := [⟨12, 9⟩, ⟨11, 9⟩, ⟨10, 9⟩, ⟨9, 9⟩, ⟨8, 9⟩, ⟨7, 9⟩, ⟨6, 9⟩, ⟨5, 9⟩],
               direction := ⟨1, 0⟩, addSegment := true },
    food := ⟨⟨3, 4⟩, none⟩,
    explosiveFood := { map := none, position := ⟨12, 9⟩, points := 90, spawnTime := 1000,
                       isActive := false },
    hardMap := none, running := true, score := 96, highestscore := 0, foodEatenCount := 6,
    gameovermenu := false, rng := [], highestscoreFile := [], fileWritable := true }

/-- A paused easy-mode game with score 4 and a stored high score of 9. -/
def storedScoreState : Game :=
  { easyRun ⟨7, 9⟩ [] with
    score := 4, highestscore := 9, foodEatenCount := 4, highestscoreFile := [9] }

/-- The same game when the high-score file cannot be opened for writing. -/
def unwritableScoreState : Game :=
  { storedScoreState with fileWritable := false }

/-- A run with score 3 and high score 2 whose high-score file, holding 2,
cannot be opened for writing. -/
def unwritableRun : Game :=
  { easyRun ⟨7, 9⟩ [10, 12] with
    score := 3, highestscore := 2, highestscoreFile := [2], fileWritable := false }

/-- An easy-mode session whose snake heads left, (-1,0), at the left edge of
the grid. -/
def leftEdgeSession : Session :=
  { game := { easyRun ⟨12, 12⟩ [10, 10, 11, 11, 12, 12] with
              snake := { body := [⟨0, 5⟩, ⟨1, 5⟩, ⟨2, 5⟩], direction := ⟨-1, 0⟩,
                         addSegment := false } },
    allowMove := false, isHardMode := false }

/-- A frame in which no arrow key is pressed. -/
def noKeys : Keys :=
  ⟨false, false, false, false⟩

/-! ## Notions used in the statements -/

/-- A cell of the grid: both coordinates in `[0, cellCount)`. -/
def InGrid (p : Vector2) : Prop :=
  (0 ≤ p.x ∧ p.x < cellCount) ∧ (0 ≤ p.y ∧ p.y < cellCount)

instance (p : Vector2) : Decidable (InGrid p) := by
  unfold InGrid; infer_instance

/-- The probe rectangle of side `size` that food placement tests for the cell `p`. -/
def probe (size : Int) (p : Vector2) : Rectangle :=
  ⟨offset + p.x * cellSize, offset + p.y * cellSize, size, size⟩

/-- A cell is free when it is no element of the snake body and, when a map is
present, its probe rectangle overlaps no wall of the map. -/
def Free (map : Option MapBase) (snakeBody : List Vector2) (p : Vector2) : Prop :=
  p ∉ snakeBody ∧
    ∀ m, map = some m → ∀ w ∈ m.walls, CheckCollisionRecs w.rect (probe m.blockSize p) = false

/-- The call of `CheckCollisionWithEdges` is fatal: the head is out of the grid
or, with a map present, its rectangle overlaps a wall. -/
def Fatal (g : Game) (head : Vector2) : Prop :=
  outOfGrid head = true ∨
    ∃ m, g.hardMap = some m ∧ m.CheckCollisionWithRect (headRect head) = true

/-- The exact reverse of a heading. -/
def reverse (d : Vector2) : Vector2 :=
  ⟨-d.x, -d.y⟩

/-- The four headings (1,0), (-1,0), (0,1), (0,-1). -/
def IsHeading (d : Vector2) : Prop :=
  d = ⟨1, 0⟩ ∨ d = ⟨-1, 0⟩ ∨ d = ⟨0, 1⟩ ∨ d = ⟨0, -1⟩

/-- The map of the mode: the hard-mode map in hard mode, none in easy mode. -/
def modeMap (isHardMode : Bool) : Option MapBase :=
  if isHardMode then some (HardModeMap cellSize) else none

/-- A start of run: the snake is reset, the food was placed by
`GenerateRandomPos` against the reset body with the mode's map, the explosive
food is inactive, and `hardMap` is present exactly in hard mode (the food and
the explosive food point to it). -/
structure StartOfRun (isHardMode : Bool) (g : Game) : Prop where
  body : g.snake.body = Snake.startBody
  direction : g.snake.direction = ⟨1, 0⟩
  hardMap : g.hardMap = modeMap isHardMode
  foodMap : g.food.map = g.hardMap
  explosiveMap : g.explosiveFood.map = g.hardMap
  food : ∃ rng rest,
    g.food.GenerateRandomPos Snake.startBody rng = .ok (g.food.position, rest)
  inactive : g.explosiveFood.isActive = false

/-- The states reachable from a start of run by `Game::Update` ticks and by
the direction input of frames; the high-score file may become writable or
unwritable at any time. -/
inductive Reachable (isHardMode : Bool) : Game → Prop where
  | start (g : Game) : StartOfRun isHardMode g → Reachable isHardMode g
  | tick (g g' : Game) (tUpdate tSpawn : Int) :
      Reachable isHardMode g → Game.Update isHardMode tUpdate tSpawn g = .ok g' →
      Reachable isHardMode g'
  | turn (g : Game) (keys : Keys) (allowMove : Bool) :
      Reachable isHardMode g →
      Reachable isHardMode
        { g with snake := { g.snake with
            direction := (directionInput keys ⟨g.snake.direction, allowMove, 0⟩).direction } }
  | environment (g : Game) (writable : Bool) :
      Reachable isHardMode g → Reachable isHardMode { g with fileWritable := writable }

/-- The state `g'` comes from `g` by zero or more calls of `GameOver` that returned. -/
inductive AfterGameOvers : Game → Game → Prop where
  | same (g : Game) : AfterGameOvers g g
  | again (g g1 g' : Game) : g.GameOver = .ok g1 → AfterGameOvers g1 g' → AfterGameOvers g g'

/-- What a returned `GameOver` leaves. -/
structure GameOverState (g g' : Game) : Prop where
  running : g'.running = false
  menu : g'.gameovermenu = true
  body : g'.snake.body = Snake.startBody
  direction : g'.snake.direction = ⟨1, 0⟩
  inactive : g'.explosiveFood.isActive = false
  free : Free g'.food.map Snake.startBody g'.food.position
  grid : InGrid g'.food.position

/-- Between two ticks the heading is either the one the last tick used, or a
heading accepted since, after which `allowMove` is cleared. -/
def HeadingKept (d : Vector2) (s : Session) : Prop :=
  s.game.snake.direction = d ∨
    (s.allowMove = false ∧ s.game.snake.direction ≠ reverse d ∧
      IsHeading s.game.snake.direction)

/-- Successive `Game::Update` ticks, one for each pair of clock readings. -/
def Game.ticks (isHardMode : Bool) : List (Int × Int) → Game → Except Fault Game
  | [], g => .ok g
  | (tUpdate, tSpawn) :: later, g =>
    match Game.Update isHardMode tUpdate tSpawn g with
    | .error f => .error f
    | .ok g1 => Game.ticks isHardMode later g1

/-- What holds in every state of a run: the maps are the mode's map, the food
lies on a free cell of the grid, and so does an active explosive food. -/
structure RunInv (isHardMode : Bool) (g : Game) : Prop where
  hardMap : g.hardMap = modeMap isHardMode
  foodMap : g.food.map = g.hardMap
  explosiveMap : g.explosiveFood.map = g.hardMap
  foodFree : Free g.food.map g.snake.body g.food.position
  foodGrid : InGrid g.food.position
  explosive : g.explosiveFood.isActive = true →
    Free g.explosiveFood.map g.snake.body g.explosiveFood.position ∧
    InGrid g.explosiveFood.position

/-- The states the program can reach from the initial `Game` state: by
`Snake::Reset`, `Game::Update` ticks, `Game::GameOver` and direction input,
and by the other calls and assignments `main` makes on the game (mode
switches, score resets, food placement, `eat`, the `running` and
`gameovermenu` flags). -/
inductive FromInitial : Game → Prop where
  | initial (file : List Int) (writable : Bool) (rng : List Nat) (g : Game) :
      Game.new file writable rng = .ok g → FromInitial g
  | reset (g : Game) : FromInitial g → FromInitial { g with snake := g.snake.Reset }
  | tick (g g' : Game) (isHardMode : Bool) (tUpdate tSpawn : Int) :
      FromInitial g → Game.Update isHardMode tUpdate tSpawn g = .ok g' → FromInitial g'
  | gameOver (g g' : Game) : FromInitial g → g.GameOver = .ok g' → FromInitial g'
  | turn (g : Game) (keys : Keys) (allowMove : Bool) :
      FromInitial g →
      FromInitial
        { g with snake := { g.snake with
            direction := (directionInput keys ⟨g.snake.direction, allowMove, 0⟩).direction } }
  | initializeHardMode (g g' : Game) :
      FromInitial g → g.InitializeHardMode = .ok g' → FromInitial g'
  | disableHardMode (g g' : Game) :
      FromInitial g → g.DisableHardMode = .ok g' → FromInitial g'
  | resetScores (g : Game) : FromInitial g → FromInitial g.resetScores
  | resetCurrentScore (g : Game) : FromInitial g → FromInitial g.resetCurrentScore
  | placeFood (g : Game) (position : Vector2) (rest : List Nat) :
      FromInitial g → g.food.GenerateRandomPos g.snake.body g.rng = .ok (position, rest) →
      FromInitial { g with food := { g.food with position := position }, rng := rest }
  | eat (g : Game) : FromInitial g → FromInitial { g with explosiveFood := g.explosiveFood.eat }
  | flags (g : Game) (running gameovermenu : Bool) :
      FromInitial g → FromInitial { g with running := running, gameovermenu := gameovermenu }
  | environment (g : Game) (writable : Bool) :
      FromInitial g → FromInitial { g with fileWritable := writable }

/-- The cells the hard-mode layout blocks, as the claim lists them. -/
def wallCell (x y : Int) : Prop :=
  (x = 3 ∧ 1 ≤ y ∧ y ≤ 10) ∨ (3 ≤ x ∧ x ≤ 10 ∧ y = 12) ∨
  (x = 19 ∧ 1 ≤ y ∧ y ≤ 10) ∨ (11 ≤ x ∧ x ≤ 18 ∧ y = 18)

/-! ## Basic facts -/

theorem Vector2Equals_iff (p q : Vector2) : Vector2Equals p q = true ↔ p = q := by
  cases p; cases q
  simp [Vector2Equals]

theorem ElementInDeque_iff (element : Vector2) (deque : List Vector2) :
    ElementInDeque element deque = true ↔ element ∈ deque := by
  induction deque with
  | nil => simp [ElementInDeque]
  | cons d ds ih =>
    by_cases h : Vector2Equals d element = true
    · have hd : d = element := (Vector2Equals_iff d element).1 h
      subst hd
      simp [ElementInDeque, h]
    · have hne : ¬ element = d := fun e => h ((Vector2Equals_iff d element).2 e.symm)
      simp [ElementInDeque, h, ih, hne]

theorem GetRandomValue_grid (raw : Nat) :
    0 ≤ GetRandomValue 0 (cellCount - 1) raw ∧ GetRandomValue 0 (cellCount - 1) raw < cellCount := by
  have h : raw % 25 < 25 := Nat.mod_lt _ (by decide)
  simp only [GetRandomValue, cellCount]
  norm_num
  omega

theorem randomCell_grid (rx ry : Nat) :
    (0 ≤ (randomCell rx ry).x ∧ (randomCell rx ry).x < cellCount) ∧
    (0 ≤ (randomCell rx ry).y ∧ (randomCell rx ry).y < cellCount) :=
  ⟨GetRandomValue_grid rx, GetRandomValue_grid ry⟩

theorem GenerateRandomPos_eq_static (food : Food) (snakeBody : List Vector2) (rng : List Nat) :
    food.GenerateRandomPos snakeBody rng = Food.GenerateRandomPosStatic snakeBody food.map rng := by
  induction rng using Food.GenerateRandomPosStatic.induct snakeBody food.map with
  | case1 rx ry rest h ih => simp [Food.GenerateRandomPos, Food.GenerateRandomPosStatic, h, ih]
  | case2 rx ry rest h => simp [Food.GenerateRandomPos, Food.GenerateRandomPosStatic, h]
  | case3 rng h =>
    unfold Food.GenerateRandomPos Food.GenerateRandomPosStatic
    split
    · exact absurd rfl (h _ _ _)
    · rfl

theorem static_ok_spec (snakeBody : List Vector2) (map : Option MapBase) (rng : List Nat)
    (p : Vector2) (rest : List Nat)
    (h : Food.GenerateRandomPosStatic snakeBody map rng = .ok (p, rest)) :
    ∃ pre, sampledCells rng = pre ++ p :: sampledCells rest ∧
      (∀ c ∈ pre, rejected map snakeBody c = true) ∧
      rejected map snakeBody p = false ∧ InGrid p ∧ rest.length < rng.length := by
  induction rng using Food.GenerateRandomPosStatic.induct snakeBody map with
  | case1 rx ry tl hrej ih =>
    simp only [Food.GenerateRandomPosStatic, hrej, if_true] at h
    obtain ⟨pre, hs, hpre, hp, hg, hl⟩ := ih h
    refine ⟨randomCell rx ry :: pre, ?_, ?_, hp, hg, ?_⟩
    · simp [sampledCells, hs]
    · intro c hc
      rcases List.mem_cons.1 hc with rfl | hc
      · exact hrej
      · exact hpre c hc
    · simp only [List.length_cons]; omega
  | case2 rx ry tl hrej =>
    simp only [Food.GenerateRandomPosStatic, hrej] at h
    simp only [Bool.false_eq_true, if_false, Except.ok.injEq, Prod.mk.injEq] at h
    obtain ⟨rfl, rfl⟩ := h
    refine ⟨[], by simp [sampledCells], by simp, ?_, randomCell_grid rx ry, ?_⟩
    · simpa using hrej
    · simp only [List.length_cons]; omega
  | case3 rng hne =>
    unfold Food.GenerateRandomPosStatic at h
    split at h
    · exact absurd rfl (hne _ _ _)
    · cases h

theorem static_error_spec (snakeBody : List Vector2) (map : Option MapBase) (rng : List Nat)
    (f : Fault) (h : Food.GenerateRandomPosStatic snakeBody map rng = .error f) :
    f = Fault.noSample ∧ ∀ c ∈ sampledCells rng, rejected map snakeBody c = true := by
  induction rng using Food.GenerateRandomPosStatic.induct snakeBody map with
  | case1 rx ry tl hrej ih =>
    simp only [Food.GenerateRandomPosStatic, hrej, if_true] at h
    obtain ⟨hf, hall⟩ := ih h
    refine ⟨hf, ?_⟩
    intro c hc
    simp only [sampledCells, List.mem_cons] at hc
    rcases hc with rfl | hc
    · exact hrej
    · exact hall c hc
  | case2 rx ry tl hrej =>
    simp only [Food.GenerateRandomPosStatic, hrej] at h
    simp at h
  | case3 rng hne =>
    unfold Food.GenerateRandomPosStatic at h
    split at h
    · exact absurd rfl (hne _ _ _)
    · refine ⟨by cases h; rfl, ?_⟩
      intro c hc
      unfold sampledCells at hc
      split at hc
      · exact absurd rfl (hne _ _ _)
      · cases hc

theorem rejected_false_iff (map : Option MapBase) (snakeBody : List Vector2) (p : Vector2) :
    rejected map snakeBody p = false ↔ Free map snakeBody p := by
  cases map with
  | none => simp [rejected, Free, ← ElementInDeque_iff]
  | some m =>
    simp [rejected, Free, probe, ← ElementInDeque_iff, MapBase.CheckCollision,
      Wall.CheckCollision]

theorem rejected_true_iff (map : Option MapBase) (snakeBody : List Vector2) (p : Vector2) :
    rejected map snakeBody p = true ↔ ¬ Free map snakeBody p := by
  rw [← rejected_false_iff]; simp

theorem probe_cellSize (p : Vector2) : probe cellSize p = headRect p := rfl

/-! ## C1: food placement -/

/-- C1, as stated, fails: the probe of `MapBase::CheckCollision` has side
`blockSize`, not `cellSize`. With the map `HardModeMap(20)` the first sample
(12,1) is returned, its 20 by 20 probe overlapping no wall, although its
`cellSize` by `cellSize` rectangle overlaps a wall. -/
theorem GenerateRandomPos_blockSize_probe :
    Food.GenerateRandomPosStatic Snake.startBody (some (HardModeMap 20)) [12, 1]
        = .ok (⟨12, 1⟩, []) ∧
    Food.GenerateRandomPos ⟨⟨0, 0⟩, some (HardModeMap 20)⟩ Snake.startBody [12, 1]
        = .ok (⟨12, 1⟩, []) ∧
    (∃ w ∈ (HardModeMap 20).walls,
      CheckCollisionRecs w.rect
        ⟨offset + 12 * cellSize, offset + 1 * cellSize, cellSize, cellSize⟩ = true) ∧
    (∀ w ∈ (HardModeMap 20).walls,
      CheckCollisionRecs w.rect (probe (HardModeMap 20).blockSize ⟨12, 1⟩) = false) :=
  ⟨rfl, rfl,
    ⟨⟨⟨offset + 19 * 20, offset + 1 * 20, 20, 10 * 20⟩⟩,
      by simp [HardModeMap, HardModeMap.LoadWalls], by decide⟩,
    by decide⟩

/-- C1 amended: for every snake body, optional map and sequence of raw
samples, `Food::GenerateRandomPos` and `Food::GenerateRandomPosStatic` agree;
when the loop ends they return the first sampled cell that is free (no element
of the snake body and, when a map is present, with a `blockSize` by
`blockSize` probe rectangle at offset + cell*cellSize overlapping no wall:
every cell sampled before it is not free); that cell is inside the grid, is no
element of the snake body and, for a map with `blockSize = cellSize` (as the
hard-mode map `Game` builds), its `cellSize` by `cellSize` rectangle
overlaps no wall; the loop ends exactly when some sampled cell is free. -/
theorem GenerateRandomPos_first_free (food : Food) (snakeBody : List Vector2) (rng : List Nat) :
    food.GenerateRandomPos snakeBody rng
        = Food.GenerateRandomPosStatic snakeBody food.map rng ∧
    (∀ p rest, Food.GenerateRandomPosStatic snakeBody food.map rng = .ok (p, rest) →
      (∃ pre, sampledCells rng = pre ++ p :: sampledCells rest ∧
          ∀ c ∈ pre, ¬ Free food.map snakeBody c) ∧
      Free food.map snakeBody p ∧ InGrid p ∧ p ∉ snakeBody ∧
      (∀ m, food.map = some m → m.blockSize = cellSize →
        ∀ w ∈ m.walls, CheckCollisionRecs w.rect (headRect p) = false)) ∧
    ((∃ p rest, Food.GenerateRandomPosStatic snakeBody food.map rng = .ok (p, rest)) ↔
      ∃ c ∈ sampledCells rng, Free food.map snakeBody c) := by
  refine ⟨GenerateRandomPos_eq_static food snakeBody rng, ?_, ?_⟩
  · intro p rest h
    obtain ⟨pre, hs, hpre, hp, hg, _⟩ := static_ok_spec snakeBody food.map rng p rest h
    have hfree : Free food.map snakeBody p := (rejected_false_iff _ _ _).1 hp
    refine ⟨⟨pre, hs, fun c hc => (rejected_true_iff _ _ _).1 (hpre c hc)⟩, hfree, hg,
      hfree.1, ?_⟩
    intro m hm hb w hw
    have := hfree.2 m hm w hw
    rwa [hb, probe_cellSize] at this
  · constructor
    · rintro ⟨p, rest, h⟩
      obtain ⟨pre, hs, _, hp, _, _⟩ := static_ok_spec snakeBody food.map rng p rest h
      exact ⟨p, by simp [hs], (rejected_false_iff _ _ _).1 hp⟩
    · rintro ⟨c, hc, hfree⟩
      cases hres : Food.GenerateRandomPosStatic snakeBody food.map rng with
      | ok v => exact ⟨v.1, v.2, rfl⟩
      | error f =>
        have hall := (static_error_spec snakeBody food.map rng f hres).2 c hc
        exact absurd hfree ((rejected_true_iff _ _ _).1 hall)

/-- Witness of C1 in hard mode: the samples (6,9) (on the snake), (3,1) (on a
wall) and (7,7) give the cell (7,7). -/
theorem GenerateRandomPos_first_free_witness :
    Food.GenerateRandomPosStatic Snake.startBody (some (HardModeMap cellSize)) [6, 9, 3, 1, 7, 7]
        = .ok (⟨7, 7⟩, []) ∧
    InGrid ⟨7, 7⟩ ∧ (⟨7, 7⟩ : Vector2) ∉ Snake.startBody ∧
    (∀ w ∈ (HardModeMap cellSize).walls, CheckCollisionRecs w.rect (headRect ⟨7, 7⟩) = false) :=
  have h := (GenerateRandomPos_first_free ⟨⟨0, 0⟩, some (HardModeMap cellSize)⟩ Snake.startBody
    [6, 9, 3, 1, 7, 7]).2.1 ⟨7, 7⟩ [] rfl
  ⟨rfl, h.2.2.1, h.2.2.2.1, h.2.2.2.2 (HardModeMap cellSize) rfl rfl⟩

/-! ## C10: the snake advances without growing -/

/-- C10: for every snake with a non-empty body and `addSegment` false,
`Snake::Update` returns the snake whose body is head + direction followed by
the old body without its last cell; the length of the body is unchanged,
`addSegment` stays false and the direction is kept. -/
theorem Snake_Update_keeps_length (s : Snake) (head : Vector2) (tail : List Vector2)
    (hbody : s.body = head :: tail) (hadd : s.addSegment = false) :
    ∃ s', s.Update = .ok s' ∧
      s'.body = Vector2Add head s.direction :: s.body.dropLast ∧
      s'.body.length = s.body.length ∧ s'.addSegment = false ∧
      s'.direction = s.direction := by
  refine ⟨{ s with body := Vector2Add head s.direction :: s.body.dropLast }, ?_, rfl, ?_,
    hadd, rfl⟩
  · simp [Snake.Update, hbody, hadd]
  · simp [hbody]

/-- Witness of C10: the start snake moves one cell to the right. -/
theorem Snake_Update_keeps_length_witness :
    ∃ s', Snake.new.Update = .ok s' ∧
      s'.body = Vector2Add ⟨6, 9⟩ Snake.new.direction :: Snake.new.body.dropLast ∧
      s'.body.length = Snake.new.body.length ∧ s'.addSegment = false ∧
      s'.direction = Snake.new.direction :=
  Snake_Update_keeps_length Snake.new ⟨6, 9⟩ [⟨5, 9⟩, ⟨4, 9⟩] rfl rfl

/-! ## C9: game over -/

/-- The state that `Game::GameOver` leaves when its food placement returns
`position` and the raw values `rest`. -/
theorem GameOver_eq (g : Game) :
    g.GameOver =
      match Food.GenerateRandomPosStatic Snake.startBody g.food.map g.rng with
      | .error f => .error f
      | .ok (position, rest) =>
        .ok { g with
              highestscore := max g.highestscore g.score
              highestscoreFile :=
                if g.score > g.highestscore ∧ g.fileWritable = true then
                  g.score :: g.highestscoreFile
                else g.highestscoreFile
              snake := { body := Snake.startBody, direction := ⟨1, 0⟩,
                         addSegment := g.snake.addSegment }
              food := { position := position, map := g.food.map }
              explosiveFood := { g.explosiveFood with isActive := false }
              running := false
              gameovermenu := true
              rng := rest } := by
  by_cases h : g.score > g.highestscore
  · have hmax : max g.highestscore g.score = g.score := max_eq_right (le_of_lt h)
    cases hw : g.fileWritable with
    | false =>
      simp only [Game.GameOver, h, if_true, Game.savehighestscore, hw, Snake.Reset,
        GenerateRandomPos_eq_static, ExplosiveFood.eat, hmax, Bool.false_eq_true, if_false,
        and_false]
    | true =>
      simp only [Game.GameOver, h, if_true, Game.savehighestscore, hw, Snake.Reset,
        GenerateRandomPos_eq_static, ExplosiveFood.eat, hmax, and_self]
  · have hmax : max g.highestscore g.score = g.highestscore := max_eq_left (not_lt.1 h)
    simp only [Game.GameOver, h, if_false, Snake.Reset, GenerateRandomPos_eq_static,
      ExplosiveFood.eat, hmax, false_and]

/-- C9, as stated, fails: with `score` 3 above `highestscore` 2 and a
high-score file that cannot be opened for writing, `Game::GameOver` raises
`highestscore` to 3 and writes nothing: the file still holds 2. -/
theorem GameOver_unwritable :
    unwritableRun.score > unwritableRun.highestscore ∧
    unwritableRun.GameOver =
      .ok { snake := { body := [⟨6, 9⟩, ⟨5, 9⟩, ⟨4, 9⟩], direction := ⟨1, 0⟩, addSegment := false },
            food := ⟨⟨10, 12⟩, none⟩, explosiveFood := ExplosiveFood.new none, hardMap := none,
            running := false, score := 3, highestscore := 3, foodEatenCount := 0,
            gameovermenu := true, rng := [], highestscoreFile := [2],
            fileWritable := false } :=
  ⟨by decide, rfl⟩

/-- C9 amended: for every game state, when the food placement of
`Game::GameOver` ends with the cell `p`, `GameOver` returns the state in which
`highestscore` is `max highestscore score`, the high-score file received that
value exactly when `score > highestscore` and the file opened for writing
(when it does not open nothing is written, and `highestscore` is raised all
the same), the snake has the start body and direction (1,0),
the food is at `p`, a free cell of the grid for the reset body, the explosive
food is inactive, `running` is false and `gameovermenu` true; `score`,
`foodEatenCount` and every other field are unchanged. When the placement does
not end on the samples, neither does `GameOver`. -/
theorem GameOver_spec (g : Game) :
    (∀ p rest, Food.GenerateRandomPosStatic Snake.startBody g.food.map g.rng = .ok (p, rest) →
      g.GameOver =
        .ok { g with
              highestscore := max g.highestscore g.score
              highestscoreFile :=
                if g.score > g.highestscore ∧ g.fileWritable = true then
                  g.score :: g.highestscoreFile
                else g.highestscoreFile
              snake := { body := [⟨6, 9⟩, ⟨5, 9⟩, ⟨4, 9⟩], direction := ⟨1, 0⟩,
                         addSegment := g.snake.addSegment }
              food := { position := p, map := g.food.map }
              explosiveFood := { g.explosiveFood with isActive := false }
              running := false
              gameovermenu := true
              rng := rest } ∧
      Free g.food.map [⟨6, 9⟩, ⟨5, 9⟩, ⟨4, 9⟩] p ∧ InGrid p) ∧
    (∀ f, Food.GenerateRandomPosStatic Snake.startBody g.food.map g.rng = .error f →
      g.GameOver = .error Fault.noSample) := by
  constructor
  · intro p rest h
    obtain ⟨_, _, _, hp, hg, _⟩ := static_ok_spec _ _ _ _ _ h
    refine ⟨?_, (rejected_false_iff _ _ _).1 hp, hg⟩
    rw [GameOver_eq, h]
    rfl
  · intro f h
    rw [GameOver_eq, h, (static_error_spec _ _ _ _ h).1]

/-- Witness of C9 amended: a run with score 3 and high score 2 ends with a
writable file; the sample (6,9) is on the reset body, (10,12) is taken. -/
theorem GameOver_spec_witness :
    ({ easyRun ⟨7, 9⟩ [6, 9, 10, 12, 1] with score := 3, highestscore := 2 } : Game).GameOver =
      .ok { snake := { body := [⟨6, 9⟩, ⟨5, 9⟩, ⟨4, 9⟩], direction := ⟨1, 0⟩, addSegment := false },
            food := ⟨⟨10, 12⟩, none⟩, explosiveFood := ExplosiveFood.new none, hardMap := none,
            running := false, score := 3, highestscore := 3, foodEatenCount := 0,
            gameovermenu := true, rng := [1], highestscoreFile := [3],
            fileWritable := true } :=
  ((GameOver_spec { easyRun ⟨7, 9⟩ [6, 9, 10, 12, 1] with score := 3, highestscore := 2 }).1
    ⟨10, 12⟩ [1] rfl).1

/-! ## C4: picking up the explosive food -/

/-- C4: for every game state, `Game::CheckCollisionWithExplosiveFood` returns
the state unchanged when the explosive food is inactive; with a head cell
`body[0]` and an active explosive food it acts exactly when the head equals
the explosive food's position: it then adds the current `points` to `score`,
makes the explosive food inactive and sets `addSegment` (nothing else
changes), and otherwise returns the state unchanged. -/
theorem CheckCollisionWithExplosiveFood_spec (g : Game) :
    (g.explosiveFood.isActive = false → g.CheckCollisionWithExplosiveFood = .ok g) ∧
    (∀ head tail, g.snake.body = head :: tail → g.explosiveFood.isActive = true →
      (head = g.explosiveFood.position →
        g.CheckCollisionWithExplosiveFood =
          .ok { g with score := g.score + g.explosiveFood.points
                       explosiveFood := { g.explosiveFood with isActive := false }
                       snake := { g.snake with addSegment := true } } ∧
        g.CheckCollisionWithExplosiveFood ≠ .ok g) ∧
      (head ≠ g.explosiveFood.position → g.CheckCollisionWithExplosiveFood = .ok g)) := by
  refine ⟨fun h => by simp [Game.CheckCollisionWithExplosiveFood, h], ?_⟩
  intro head tail hb ha
  constructor
  · intro hpos
    have heq : Vector2Equals head g.explosiveFood.position = true :=
      (Vector2Equals_iff _ _).2 hpos
    have hres : g.CheckCollisionWithExplosiveFood =
        .ok { g with score := g.score + g.explosiveFood.points
                     explosiveFood := { g.explosiveFood with isActive := false }
                     snake := { g.snake with addSegment := true } } := by
      simp [Game.CheckCollisionWithExplosiveFood, ha, hb, heq, ExplosiveFood.eat]
    refine ⟨hres, ?_⟩
    rw [hres]
    intro hsame
    have hact := congrArg (fun r => match r with
      | Except.ok g' => g'.explosiveFood.isActive
      | Except.error _ => true) hsame
    simp [ha] at hact
  · intro hpos
    have heq : Vector2Equals head g.explosiveFood.position = false := by
      cases hv : Vector2Equals head g.explosiveFood.position with
      | false => rfl
      | true => exact absurd ((Vector2Equals_iff _ _).1 hv) hpos
    simp [Game.CheckCollisionWithExplosiveFood, ha, hb, heq]

/-- Witness of C4: head (6,9) on an active explosive food worth 81 points. -/
theorem CheckCollisionWithExplosiveFood_spec_witness :
    ({ easyRun ⟨7, 9⟩ [] with
        explosiveFood := { map := none, position := ⟨6, 9⟩, points := 81, spawnTime := 5,
                           isActive := true },
        score := 4 } : Game).CheckCollisionWithExplosiveFood =
      .ok { easyRun ⟨7, 9⟩ [] with
        explosiveFood := { map := none, position := ⟨6, 9⟩, points := 81, spawnTime := 5,
                           isActive := false },
        score := 85,
        snake := { body := [⟨6, 9⟩, ⟨5, 9⟩, ⟨4, 9⟩], direction := ⟨1, 0⟩, addSegment := true } } :=
  (((CheckCollisionWithExplosiveFood_spec { easyRun ⟨7, 9⟩ [] with
        explosiveFood := { map := none, position := ⟨6, 9⟩, points := 81, spawnTime := 5,
                           isActive := true },
        score := 4 }).2 ⟨6, 9⟩ [⟨5, 9⟩, ⟨4, 9⟩] rfl rfl).1 rfl).1

/-! ## C7 and C8: self collision -/

theorem GameOver_ok_props (g g' : Game) (h : g.GameOver = .ok g') :
    g'.running = false ∧ g'.gameovermenu = true ∧ g'.rng.length < g.rng.length ∧
    g'.snake.body = Snake.startBody ∧ g'.hardMap = g.hardMap ∧ g'.food.map = g.food.map := by
  rw [GameOver_eq] at h
  cases hres : Food.GenerateRandomPosStatic Snake.startBody g.food.map g.rng with
  | error f => rw [hres] at h; cases h
  | ok v =>
    obtain ⟨p, rest⟩ := v
    rw [hres] at h
    obtain ⟨_, _, _, _, _, hl⟩ := static_ok_spec _ _ _ _ _ hres
    simp only [Except.ok.injEq] at h
    subst h
    exact ⟨rfl, rfl, hl, rfl, rfl, rfl⟩

theorem GameOver_error (g : Game) (f : Fault) (h : g.GameOver = .error f) :
    f = Fault.noSample := by
  rw [GameOver_eq] at h
  cases hres : Food.GenerateRandomPosStatic Snake.startBody g.food.map g.rng with
  | error f' =>
    rw [hres] at h
    simp only [Except.error.injEq] at h
    rw [← h]
    exact (static_error_spec _ _ _ _ hres).1
  | ok v => obtain ⟨p, rest⟩ := v; rw [hres] at h; cases h

theorem GameOver_ne_ok (g : Game) : g.GameOver ≠ .ok g := by
  intro h
  have := (GameOver_ok_props g g h).2.2.1
  omega

/-- C7: for every game state with a non-empty snake body (head `body[0]`),
`Game::CheckCollisionWithTail` runs `GameOver` if and only if the head equals
some `body[i]` with `i >= 1`; a `GameOver` that returns leaves `running` false
and `gameovermenu` true, and when the head equals no other body cell the state
is returned unchanged. -/
theorem CheckCollisionWithTail_spec (g : Game) (head : Vector2) (tail : List Vector2)
    (hbody : g.snake.body = head :: tail) :
    (g.CheckCollisionWithTail = g.GameOver ↔ ∃ i, 1 ≤ i ∧ g.snake.body[i]? = some head) ∧
    ((∃ i, 1 ≤ i ∧ g.snake.body[i]? = some head) →
      ∀ g', g.CheckCollisionWithTail = .ok g' → g'.running = false ∧ g'.gameovermenu = true) ∧
    ((¬ ∃ i, 1 ≤ i ∧ g.snake.body[i]? = some head) → g.CheckCollisionWithTail = .ok g) := by
  have hidx : (∃ i, 1 ≤ i ∧ g.snake.body[i]? = some head) ↔ head ∈ tail := by
    rw [hbody, List.mem_iff_getElem?]
    constructor
    · rintro ⟨i, hi, h⟩
      obtain ⟨j, rfl⟩ : ∃ j, i = j + 1 := ⟨i - 1, by omega⟩
      exact ⟨j, by simpa using h⟩
    · rintro ⟨j, h⟩
      exact ⟨j + 1, by omega, by simpa using h⟩
  have hyes : head ∈ tail → g.CheckCollisionWithTail = g.GameOver := by
    intro hm
    simp [Game.CheckCollisionWithTail, hbody, (ElementInDeque_iff head tail).2 hm]
  have hno : head ∉ tail → g.CheckCollisionWithTail = .ok g := by
    intro hm
    have : ElementInDeque head tail = false := by
      cases hv : ElementInDeque head tail with
      | false => rfl
      | true => exact absurd ((ElementInDeque_iff head tail).1 hv) hm
    simp [Game.CheckCollisionWithTail, hbody, this]
  refine ⟨⟨?_, fun h => hyes (hidx.1 h)⟩, ?_, fun h => hno (fun hm => h (hidx.2 hm))⟩
  · intro h
    by_contra hni
    rw [hno (fun hm => hni (hidx.2 hm))] at h
    exact GameOver_ne_ok g h.symm
  · intro h g' hg'
    rw [hyes (hidx.1 h)] at hg'
    exact ⟨(GameOver_ok_props g g' hg').1, (GameOver_ok_props g g' hg').2.1⟩

/-- Witness of C7: the head (4,5) is also `body[2]`, so the check runs `GameOver`. -/
theorem CheckCollisionWithTail_spec_witness :
    ({ easyRun ⟨7, 9⟩ [10, 12] with
        snake := { body := [⟨4, 5⟩, ⟨3, 5⟩, ⟨4, 5⟩, ⟨5, 5⟩], direction := ⟨1, 0⟩,
                   addSegment := false } } : Game).CheckCollisionWithTail =
      ({ easyRun ⟨7, 9⟩ [10, 12] with
        snake := { body := [⟨4, 5⟩, ⟨3, 5⟩, ⟨4, 5⟩, ⟨5, 5⟩], direction := ⟨1, 0⟩,
                   addSegment := false } } : Game).GameOver :=
  (CheckCollisionWithTail_spec _ ⟨4, 5⟩ [⟨3, 5⟩, ⟨4, 5⟩, ⟨5, 5⟩] rfl).1.2 ⟨2, by decide, rfl⟩

/-- C8, as stated, fails: with body [(5,5),(4,5),(3,5),(4,5)] the check
returns the state unchanged (still running, no game-over menu) and does not
run `GameOver`. -/
theorem selfCollisionScenario_no_game_over :
    selfCollisionScenario.CheckCollisionWithTail = .ok selfCollisionScenario ∧
    selfCollisionScenario.running = true ∧ selfCollisionScenario.gameovermenu = false ∧
    selfCollisionScenario.CheckCollisionWithTail ≠ selfCollisionScenario.GameOver :=
  ⟨rfl, rfl, rfl, fun h => GameOver_ne_ok selfCollisionScenario h.symm⟩

/-- C8 amended: with body [(5,5),(4,5),(3,5),(4,5)] the head (5,5) equals none
of the other cells and `CheckCollisionWithTail` returns the state unchanged;
with the same cells and the head on the repeated cell, body
[(4,5),(3,5),(4,5),(5,5)], it runs `GameOver`, which leaves `running` false and
`gameovermenu` true. -/
theorem CheckCollisionWithTail_scenario (g : Game) :
    (g.snake.body = [⟨5, 5⟩, ⟨4, 5⟩, ⟨3, 5⟩, ⟨4, 5⟩] → g.CheckCollisionWithTail = .ok g) ∧
    (g.snake.body = [⟨4, 5⟩, ⟨3, 5⟩, ⟨4, 5⟩, ⟨5, 5⟩] →
      g.CheckCollisionWithTail = g.GameOver ∧
      ∀ g', g.CheckCollisionWithTail = .ok g' → g'.running = false ∧ g'.gameovermenu = true) := by
  constructor
  · intro hb
    simp [Game.CheckCollisionWithTail, hb, ElementInDeque, Vector2Equals]
  · intro hb
    have h : g.CheckCollisionWithTail = g.GameOver := by
      simp [Game.CheckCollisionWithTail, hb, ElementInDeque, Vector2Equals]
    refine ⟨h, fun g' hg' => ?_⟩
    rw [h] at hg'
    exact ⟨(GameOver_ok_props g g' hg').1, (GameOver_ok_props g g' hg').2.1⟩

/-- Witness of C8 amended, at the scenario state. -/
theorem CheckCollisionWithTail_scenario_witness :
    selfCollisionScenario.CheckCollisionWithTail = .ok selfCollisionScenario :=
  (CheckCollisionWithTail_scenario selfCollisionScenario).1 rfl

/-! ## C3: eating the food -/

theorem shouldSpawn_iff (e : ExplosiveFood) (foodEatenCount : Int) :
    e.shouldSpawn foodEatenCount = true ↔ (5 ∣ foodEatenCount ∧ e.isActive = false) := by
  simp [ExplosiveFood.shouldSpawn, Int.dvd_iff_tmod_eq_zero]

/-- C3: for every game state with head cell `body[0]`:
when the head is not on the food, `Game::CheckCollisionWithFood` returns the
state unchanged; when it is, the call never returns the state unchanged, and
once the food placement ends with the cell `p` (free for the snake body and
the food's map, inside the grid) the result has the food at `p`, `addSegment`
set, `score` and `foodEatenCount` increased by 1, and the explosive food
untouched unless the incremented `foodEatenCount` is a multiple of 5 and the
explosive food was inactive; in that case the explosive food is spawned:
active, 100 points, spawn time `now`, at the cell `q` its own placement ends
with (free for the snake body and its map, inside the grid). -/
theorem CheckCollisionWithFood_spec (now : Int) (g : Game) (head : Vector2)
    (tail : List Vector2) (hbody : g.snake.body = head :: tail) :
    (head ≠ g.food.position → g.CheckCollisionWithFood now = .ok g) ∧
    (head = g.food.position →
      g.CheckCollisionWithFood now ≠ .ok g ∧
      ∀ p rest, Food.GenerateRandomPosStatic g.snake.body g.food.map g.rng = .ok (p, rest) →
        (Free g.food.map g.snake.body p ∧ InGrid p) ∧
        (¬ (5 ∣ g.foodEatenCount + 1 ∧ g.explosiveFood.isActive = false) →
          g.CheckCollisionWithFood now =
            .ok { g with food := { position := p, map := g.food.map }
                         snake := { g.snake with addSegment := true }
                         score := g.score + 1
                         foodEatenCount := g.foodEatenCount + 1
                         rng := rest }) ∧
        ((5 ∣ g.foodEatenCount + 1 ∧ g.explosiveFood.isActive = false) →
          ∀ q rest', Food.GenerateRandomPosStatic g.snake.body g.explosiveFood.map rest
              = .ok (q, rest') →
            (Free g.explosiveFood.map g.snake.body q ∧ InGrid q) ∧
            g.CheckCollisionWithFood now =
              .ok { g with food := { position := p, map := g.food.map }
                           snake := { g.snake with addSegment := true }
                           score := g.score + 1
                           foodEatenCount := g.foodEatenCount + 1
                           explosiveFood := { map := g.explosiveFood.map, position := q,
                                              points := 100, spawnTime := now,
                                              isActive := true }
                           rng := rest' })) := by
  constructor
  · intro hne
    have heq : Vector2Equals head g.food.position = false := by
      cases hv : Vector2Equals head g.food.position with
      | false => rfl
      | true => exact absurd ((Vector2Equals_iff _ _).1 hv) hne
    simp [Game.CheckCollisionWithFood, hbody, heq]
  · intro hpos
    have heq : Vector2Equals head g.food.position = true := (Vector2Equals_iff _ _).2 hpos
    constructor
    · intro hsame
      have hscore : ∀ g', g.CheckCollisionWithFood now = .ok g' → g'.score = g.score + 1 := by
        intro g' hg'
        simp only [Game.CheckCollisionWithFood, hbody, heq, if_true] at hg'
        split at hg'
        · cases hg'
        · split at hg'
          · split at hg'
            · cases hg'
            · simp only [Except.ok.injEq] at hg'
              rw [← hg']
          · simp only [Except.ok.injEq] at hg'
            rw [← hg']
      have := hscore g hsame
      omega
    · intro p rest hp
      obtain ⟨_, _, _, hpf, hpg, _⟩ := static_ok_spec _ _ _ _ _ hp
      refine ⟨⟨(rejected_false_iff _ _ _).1 hpf, hpg⟩, ?_, ?_⟩
      · intro hns
        have hs : ExplosiveFood.shouldSpawn g.explosiveFood (g.foodEatenCount + 1) = false := by
          cases hv : ExplosiveFood.shouldSpawn g.explosiveFood (g.foodEatenCount + 1) with
          | false => rfl
          | true => exact absurd ((shouldSpawn_iff _ _).1 hv) hns
        rw [hbody] at hp
        simp [Game.CheckCollisionWithFood, hbody, heq, GenerateRandomPos_eq_static, hp, hs]
      · intro hsp q rest' hq
        obtain ⟨_, _, _, hqf, hqg, _⟩ := static_ok_spec _ _ _ _ _ hq
        have hs : ExplosiveFood.shouldSpawn g.explosiveFood (g.foodEatenCount + 1) = true :=
          (shouldSpawn_iff _ _).2 hsp
        refine ⟨⟨(rejected_false_iff _ _ _).1 hqf, hqg⟩, ?_⟩
        rw [hbody] at hp hq
        simp [Game.CheckCollisionWithFood, hbody, heq, GenerateRandomPos_eq_static, hp,
          hs, ExplosiveFood.spawn, hq, ExplosiveFood.basePoints]

/-- Witness of C3: the fifth food is eaten at (6,9); the food moves to (3,4)
(the sample (6,9) is on the snake) and the explosive food spawns at (8,8) (the
sample (5,9) is on the snake) at time 1000. -/
theorem CheckCollisionWithFood_spec_witness :
    Game.CheckCollisionWithFood 1000
        { easyRun ⟨6, 9⟩ [6, 9, 3, 4, 5, 9, 8, 8] with score := 4, foodEatenCount := 4 } =
      .ok { easyRun ⟨3, 4⟩ [] with
            snake := { body := [⟨6, 9⟩, ⟨5, 9⟩, ⟨4, 9⟩], direction := ⟨1, 0⟩, addSegment := true },
            score := 5, foodEatenCount := 5,
            explosiveFood := { map := none, position := ⟨8, 8⟩, points := 100,
                               spawnTime := 1000, isActive := true } } :=
  ((((CheckCollisionWithFood_spec 1000
      { easyRun ⟨6, 9⟩ [6, 9, 3, 4, 5, 9, 8, 8] with score := 4, foodEatenCount := 4 }
      ⟨6, 9⟩ [⟨5, 9⟩, ⟨4, 9⟩] rfl).2 rfl).2 ⟨3, 4⟩ [5, 9, 8, 8] rfl).2.2 ⟨⟨1, rfl⟩, rfl⟩
      ⟨8, 8⟩ [] rfl).2

/-! ## C5 and C6: grid bounds and walls -/

theorem outOfGrid_iff (head : Vector2) :
    outOfGrid head = true ↔
      (head.x < 0 ∨ head.x ≥ cellCount ∨ head.y < 0 ∨ head.y ≥ cellCount) := by
  simp only [outOfGrid, Bool.or_eq_true, decide_eq_true_eq]
  tauto

theorem outOfGrid_false_iff (head : Vector2) : outOfGrid head = false ↔ InGrid head := by
  rw [← Bool.not_eq_true, outOfGrid_iff, InGrid]
  constructor
  · intro h
    refine ⟨⟨?_, ?_⟩, ⟨?_, ?_⟩⟩ <;> by_contra hc <;> apply h <;> simp only [ge_iff_le] <;> omega
  · rintro ⟨⟨h1, h2⟩, ⟨h3, h4⟩⟩ h
    simp only [ge_iff_le] at h
    omega

theorem CheckCollisionWithRect_iff (m : MapBase) (rect : Rectangle) :
    m.CheckCollisionWithRect rect = true ↔
      ∃ w ∈ m.walls, CheckCollisionRecs w.rect rect = true := by
  simp [MapBase.CheckCollisionWithRect, Wall.CheckCollision]

/-- The second block keeps a game-over state a game-over state. -/
theorem edgesHardBlock_keeps_game_over (g g' : Game) (hrun : g.running = false)
    (hmenu : g.gameovermenu = true) (h : g.edgesHardBlock = .ok g') :
    g'.running = false ∧ g'.gameovermenu = true := by
  unfold Game.edgesHardBlock at h
  split at h
  · cases h; exact ⟨hrun, hmenu⟩
  · split at h
    · cases h
    · split at h
      · exact ⟨(GameOver_ok_props g g' h).1, (GameOver_ok_props g g' h).2.1⟩
      · cases h; exact ⟨hrun, hmenu⟩

theorem CheckCollisionWithEdges_fatal_ok (isHardMode : Bool) (g : Game) (head : Vector2)
    (tail : List Vector2) (hbody : g.snake.body = head :: tail) (hfatal : Fatal g head)
    (g' : Game) (h : g.CheckCollisionWithEdges isHardMode = .ok g') :
    g'.running = false ∧ g'.gameovermenu = true := by
  unfold Game.CheckCollisionWithEdges at h
  cases he : Game.edgesEasyBlock isHardMode g with
  | error f => rw [he] at h; cases h
  | ok g1 =>
    rw [he] at h
    simp only at h
    by_cases hover : g1.running = false ∧ g1.gameovermenu = true
    · exact edgesHardBlock_keeps_game_over g1 g' hover.1 hover.2 h
    · -- the first block did not run `GameOver`, so it returned `g`
      have hg1 : g1 = g := by
        unfold Game.edgesEasyBlock at he
        split at he
        · rw [hbody] at he
          simp only at he
          split at he
          · exact absurd ⟨(GameOver_ok_props g g1 he).1, (GameOver_ok_props g g1 he).2.1⟩ hover
          · cases he; rfl
        · cases he; rfl
      subst hg1
      have hnoeasy : ¬ ((!isHardMode || g1.hardMap.isNone) = true ∧ outOfGrid head = true) := by
        rintro ⟨hc, ho⟩
        unfold Game.edgesEasyBlock at he
        rw [if_pos hc, hbody] at he
        simp only [ho, if_true] at he
        exact GameOver_ne_ok g1 he
      unfold Game.edgesHardBlock at h
      cases hm : g1.hardMap with
      | none =>
        rcases hfatal with ho | ⟨m, hm', _⟩
        · exact absurd ⟨by simp [hm], ho⟩ hnoeasy
        · rw [hm] at hm'; cases hm'
      | some m =>
        rw [hm, hbody] at h
        simp only at h
        have hcond : (m.CheckCollisionWithRect (headRect head) || outOfGrid head) = true := by
          rcases hfatal with ho | ⟨m', hm', hc⟩
          · simp [ho]
          · rw [hm] at hm'
            cases hm'
            simp [hc]
        rw [if_pos hcond] at h
        exact ⟨(GameOver_ok_props g1 g' h).1, (GameOver_ok_props g1 g' h).2.1⟩

theorem GameOver_returns (g : Game) (p : Vector2) (rest : List Nat)
    (h : Food.GenerateRandomPosStatic Snake.startBody g.food.map g.rng = .ok (p, rest)) :
    ∃ g1, g.GameOver = .ok g1 ∧ g1.rng = rest ∧ g1.food.map = g.food.map ∧
      g1.snake.body = Snake.startBody ∧ g1.hardMap = g.hardMap := by
  rw [GameOver_eq, h]
  exact ⟨_, rfl, rfl, rfl, rfl, rfl⟩

theorem edgesEasyBlock_cases (isHardMode : Bool) (g : Game) (head : Vector2)
    (tail : List Vector2) (hbody : g.snake.body = head :: tail) :
    Game.edgesEasyBlock isHardMode g = .ok g ∨ Game.edgesEasyBlock isHardMode g = g.GameOver := by
  unfold Game.edgesEasyBlock
  rw [hbody]
  simp only
  split
  · split
    · exact Or.inr rfl
    · exact Or.inl rfl
  · exact Or.inl rfl

theorem edgesHardBlock_cases (g : Game) (head : Vector2) (tail : List Vector2)
    (hbody : g.snake.body = head :: tail) :
    g.edgesHardBlock = .ok g ∨ g.edgesHardBlock = g.GameOver := by
  unfold Game.edgesHardBlock
  rw [hbody]
  cases g.hardMap with
  | none => exact Or.inl rfl
  | some m =>
    simp only
    split
    · exact Or.inr rfl
    · exact Or.inl rfl

theorem CheckCollisionWithEdges_returns (isHardMode : Bool) (g : Game) (head : Vector2)
    (tail : List Vector2) (hbody : g.snake.body = head :: tail)
    (p : Vector2) (r1 : List Nat) (p2 : Vector2) (r2 : List Nat)
    (h1 : Food.GenerateRandomPosStatic Snake.startBody g.food.map g.rng = .ok (p, r1))
    (h2 : Food.GenerateRandomPosStatic Snake.startBody g.food.map r1 = .ok (p2, r2)) :
    ∃ g', g.CheckCollisionWithEdges isHardMode = .ok g' := by
  obtain ⟨g1, hg1, hr1, hm1, hb1, _⟩ := GameOver_returns g p r1 h1
  have h2' : Food.GenerateRandomPosStatic Snake.startBody g1.food.map g1.rng = .ok (p2, r2) := by
    rw [hm1, hr1]; exact h2
  obtain ⟨g2, hg2, _⟩ := GameOver_returns g1 p2 r2 h2'
  unfold Game.CheckCollisionWithEdges
  rcases edgesEasyBlock_cases isHardMode g head tail hbody with he | he
  · rw [he]
    simp only
    rcases edgesHardBlock_cases g head tail hbody with hh | hh
    · exact ⟨g, hh⟩
    · exact ⟨g1, hh.trans hg1⟩
  · rw [he, hg1]
    simp only
    rcases edgesHardBlock_cases g1 _ _ hb1 with hh | hh
    · exact ⟨g1, hh⟩
    · exact ⟨g2, hh.trans hg2⟩

theorem CheckCollisionWithEdges_error (isHardMode : Bool) (g : Game) (head : Vector2)
    (tail : List Vector2) (hbody : g.snake.body = head :: tail) (f : Fault)
    (h : g.CheckCollisionWithEdges isHardMode = .error f) : f = Fault.noSample := by
  unfold Game.CheckCollisionWithEdges at h
  rcases edgesEasyBlock_cases isHardMode g head tail hbody with he | he
  · rw [he] at h
    simp only at h
    rcases edgesHardBlock_cases g head tail hbody with hh | hh
    · rw [hh] at h; cases h
    · rw [hh] at h; exact GameOver_error g f h
  · rw [he] at h
    cases hgo : g.GameOver with
    | error f' =>
      rw [hgo] at h
      simp only [Except.error.injEq] at h
      rw [← h]
      exact GameOver_error g f' hgo
    | ok g1 =>
      rw [hgo] at h
      simp only at h
      have hb1 := (GameOver_ok_props g g1 hgo).2.2.2.1
      rcases edgesHardBlock_cases g1 _ _ hb1 with hh | hh
      · rw [hh] at h; cases h
      · rw [hh] at h; exact GameOver_error g1 f h

/-- C5: for every game state whose head cell `body[0]` has `x < 0`,
`x >= cellCount`, `y < 0` or `y >= cellCount`, and for every value of
`isHardMode` and of `hardMap`: every state that `CheckCollisionWithEdges`
returns has `running` false and `gameovermenu` true; with `isHardMode` set or
no map the call is exactly one `GameOver`; the call returns as soon as the
samples let two successive food placements for the reset body end, and fails
to return only when the samples run out. -/
theorem CheckCollisionWithEdges_out_of_grid (isHardMode : Bool) (g : Game) (head : Vector2)
    (tail : List Vector2) (hbody : g.snake.body = head :: tail)
    (hout : head.x < 0 ∨ head.x ≥ cellCount ∨ head.y < 0 ∨ head.y ≥ cellCount) :
    (∀ g', g.CheckCollisionWithEdges isHardMode = .ok g' →
      g'.running = false ∧ g'.gameovermenu = true) ∧
    ((isHardMode = true ∨ g.hardMap = none) →
      g.CheckCollisionWithEdges isHardMode = g.GameOver) ∧
    (∀ p r1 p2 r2,
      Food.GenerateRandomPosStatic Snake.startBody g.food.map g.rng = .ok (p, r1) →
      Food.GenerateRandomPosStatic Snake.startBody g.food.map r1 = .ok (p2, r2) →
      ∃ g', g.CheckCollisionWithEdges isHardMode = .ok g') ∧
    (∀ f, g.CheckCollisionWithEdges isHardMode = .error f → f = Fault.noSample) := by
  have ho : outOfGrid head = true := (outOfGrid_iff head).2 hout
  refine ⟨fun g' h => CheckCollisionWithEdges_fatal_ok isHardMode g head tail hbody (Or.inl ho) g' h,
    ?_, fun p r1 p2 r2 h1 h2 =>
      CheckCollisionWithEdges_returns isHardMode g head tail hbody p r1 p2 r2 h1 h2,
    fun f h => CheckCollisionWithEdges_error isHardMode g head tail hbody f h⟩
  intro hcase
  cases hm : g.hardMap with
  | none =>
    have he : Game.edgesEasyBlock isHardMode g = g.GameOver := by
      simp [Game.edgesEasyBlock, hm, hbody, ho]
    unfold Game.CheckCollisionWithEdges
    rw [he]
    cases hgo : g.GameOver with
    | error f => rfl
    | ok g1 =>
      have hm1 : g1.hardMap = none := by rw [(GameOver_ok_props g g1 hgo).2.2.2.2.1, hm]
      simp [Game.edgesHardBlock, hm1]
  | some m =>
    have hflag : isHardMode = true := by
      rcases hcase with h | h
      · exact h
      · rw [hm] at h; cases h
    have he : Game.edgesEasyBlock isHardMode g = .ok g := by
      simp [Game.edgesEasyBlock, hm, hflag]
    unfold Game.CheckCollisionWithEdges
    rw [he]
    simp [Game.edgesHardBlock, hm, hbody, ho]

/-- Witness of C5: in hard mode the head reaches x = cellCount = 25. -/
theorem CheckCollisionWithEdges_out_of_grid_witness :
    ∃ g', Game.CheckCollisionWithEdges true
        { hardRun ⟨7, 9⟩ [10, 10, 11, 11] with
          snake := { body := [⟨25, 9⟩, ⟨24, 9⟩, ⟨23, 9⟩], direction := ⟨1, 0⟩,
                     addSegment := false } } = .ok g' ∧
      g'.running = false ∧ g'.gameovermenu = true :=
  have h := CheckCollisionWithEdges_out_of_grid true
    { hardRun ⟨7, 9⟩ [10, 10, 11, 11] with
      snake := { body := [⟨25, 9⟩, ⟨24, 9⟩, ⟨23, 9⟩], direction := ⟨1, 0⟩,
                 addSegment := false } }
    ⟨25, 9⟩ [⟨24, 9⟩, ⟨23, 9⟩] rfl (Or.inr (Or.inl (by decide)))
  match h.2.2.1 ⟨10, 10⟩ [11, 11] ⟨11, 11⟩ [] rfl rfl with
  | ⟨g', hg'⟩ => ⟨g', hg', h.1 g' hg'⟩

/-- C6: for every game state with a map present and head cell `body[0]`, and
for every value of `isHardMode`: if the head's rectangle
`(offset + x*cellSize, offset + y*cellSize, cellSize, cellSize)` overlaps a
wall, every state that `CheckCollisionWithEdges` returns has `running` false
and `gameovermenu` true, the call is exactly one `GameOver` when `isHardMode`
is set or the head is inside the grid, and it returns as soon as the samples
let two successive food placements for the reset body end; if the head is
inside the grid and its rectangle overlaps no wall, the state is returned
unchanged. -/
theorem CheckCollisionWithEdges_walls (isHardMode : Bool) (g : Game) (m : MapBase)
    (head : Vector2) (tail : List Vector2) (hmap : g.hardMap = some m)
    (hbody : g.snake.body = head :: tail) :
    ((∃ w ∈ m.walls, CheckCollisionRecs w.rect (headRect head) = true) →
      (∀ g', g.CheckCollisionWithEdges isHardMode = .ok g' →
        g'.running = false ∧ g'.gameovermenu = true) ∧
      ((isHardMode = true ∨ InGrid head) →
        g.CheckCollisionWithEdges isHardMode = g.GameOver) ∧
      (∀ p r1 p2 r2,
        Food.GenerateRandomPosStatic Snake.startBody g.food.map g.rng = .ok (p, r1) →
        Food.GenerateRandomPosStatic Snake.startBody g.food.map r1 = .ok (p2, r2) →
        ∃ g', g.CheckCollisionWithEdges isHardMode = .ok g')) ∧
    (InGrid head → (∀ w ∈ m.walls, CheckCollisionRecs w.rect (headRect head) = false) →
      g.CheckCollisionWithEdges isHardMode = .ok g) := by
  constructor
  · intro hwall
    have hc : m.CheckCollisionWithRect (headRect head) = true :=
      (CheckCollisionWithRect_iff m _).2 hwall
    refine ⟨fun g' h => CheckCollisionWithEdges_fatal_ok isHardMode g head tail hbody
        (Or.inr ⟨m, hmap, hc⟩) g' h, ?_, fun p r1 p2 r2 h1 h2 =>
        CheckCollisionWithEdges_returns isHardMode g head tail hbody p r1 p2 r2 h1 h2⟩
    intro hcase
    have he : Game.edgesEasyBlock isHardMode g = .ok g := by
      rcases hcase with hflag | hin
      · simp [Game.edgesEasyBlock, hmap, hflag]
      · have : outOfGrid head = false := (outOfGrid_false_iff head).2 hin
        simp [Game.edgesEasyBlock, hmap, hbody, this]
    unfold Game.CheckCollisionWithEdges
    rw [he]
    simp [Game.edgesHardBlock, hmap, hbody, hc]
  · intro hin hfree
    have ho : outOfGrid head = false := (outOfGrid_false_iff head).2 hin
    have hc : m.CheckCollisionWithRect (headRect head) = false := by
      cases hv : m.CheckCollisionWithRect (headRect head) with
      | false => rfl
      | true =>
        obtain ⟨w, hw, hcol⟩ := (CheckCollisionWithRect_iff m _).1 hv
        rw [hfree w hw] at hcol
        cases hcol
    have he : Game.edgesEasyBlock isHardMode g = .ok g := by
      simp [Game.edgesEasyBlock, hmap, hbody, ho]
    unfold Game.CheckCollisionWithEdges
    rw [he]
    simp [Game.edgesHardBlock, hmap, hbody, hc, ho]

/-- Witness of C6: in hard mode the head on the wall cell (3,1) is fatal. -/
theorem CheckCollisionWithEdges_walls_witness :
    Game.CheckCollisionWithEdges true
        { hardRun ⟨7, 9⟩ [10, 10] with
          snake := { body := [⟨3, 1⟩, ⟨2, 1⟩, ⟨1, 1⟩], direction := ⟨1, 0⟩,
                     addSegment := false } } =
      .ok { hardRun ⟨10, 10⟩ [] with running := false, gameovermenu := true } :=
  (((CheckCollisionWithEdges_walls true
      { hardRun ⟨7, 9⟩ [10, 10] with
        snake := { body := [⟨3, 1⟩, ⟨2, 1⟩, ⟨1, 1⟩], direction := ⟨1, 0⟩,
                   addSegment := false } }
      (HardModeMap cellSize) ⟨3, 1⟩ [⟨2, 1⟩, ⟨1, 1⟩] rfl rfl).1
      ⟨⟨⟨offset + 3 * cellSize, offset + 1 * cellSize, cellSize, 10 * cellSize⟩⟩,
        by simp [HardModeMap, HardModeMap.LoadWalls], by decide⟩).2.1 (Or.inl rfl)).trans rfl

/-! ## C2: the easy-mode scenario -/

/-- C2, as stated, fails: from the scenario state (with `addSegment` false, as
at every start of a run) one `Game::Update` leaves a body of 3 cells, not 4;
the growth is pending in `addSegment`. -/
theorem Update_scenario_body_not_grown :
    Game.Update false 0 0 (easyRun ⟨7, 9⟩ [3, 4]) =
      .ok { easyRun ⟨3, 4⟩ [] with
            snake := { body := [⟨7, 9⟩, ⟨6, 9⟩, ⟨5, 9⟩], direction := ⟨1, 0⟩, addSegment := true },
            score := 1, foodEatenCount := 1 } ∧
    ([⟨7, 9⟩, ⟨6, 9⟩, ⟨5, 9⟩] : List Vector2).length ≠ 4 :=
  ⟨rfl, by decide⟩

/-- C2 amended: in easy mode (no map), from a running state with snake body
[(6,9),(5,9),(4,9)], direction (1,0), `addSegment` false, food at (7,9),
inactive explosive food, score 0 and foodEatenCount 0, one `Game::Update`
whose food placement ends with the cell `p` returns the state with head at
(7,9), body [(7,9),(6,9),(5,9)] still of 3 cells, `addSegment` set, score 1,
foodEatenCount 1 and the food at `p`, a grid cell not on the snake; everything
else is unchanged, and the next `Snake::Update` grows the body to 4 cells. -/
theorem Update_scenario_eats_food (isHardMode : Bool) (tUpdate tSpawn : Int) (g : Game)
    (hsnake : g.snake = { body := [⟨6, 9⟩, ⟨5, 9⟩, ⟨4, 9⟩], direction := ⟨1, 0⟩,
                          addSegment := false })
    (hfood : g.food = { position := ⟨7, 9⟩, map := none })
    (hexp : g.explosiveFood.isActive = false) (hmap : g.hardMap = none)
    (hrun : g.running = true) (hscore : g.score = 0) (hcount : g.foodEatenCount = 0)
    (p : Vector2) (rest : List Nat)
    (hp : Food.GenerateRandomPosStatic [⟨7, 9⟩, ⟨6, 9⟩, ⟨5, 9⟩] none g.rng = .ok (p, rest)) :
    g.Update isHardMode tUpdate tSpawn =
      .ok { g with snake := { body := [⟨7, 9⟩, ⟨6, 9⟩, ⟨5, 9⟩], direction := ⟨1, 0⟩,
                              addSegment := true }
                   food := { position := p, map := none }
                   score := 1
                   foodEatenCount := 1
                   rng := rest } ∧
    p ∉ ([⟨7, 9⟩, ⟨6, 9⟩, ⟨5, 9⟩] : List Vector2) ∧ InGrid p ∧
    Snake.Update { body := [⟨7, 9⟩, ⟨6, 9⟩, ⟨5, 9⟩], direction := ⟨1, 0⟩, addSegment := true } =
      .ok { body := [⟨8, 9⟩, ⟨7, 9⟩, ⟨6, 9⟩, ⟨5, 9⟩], direction := ⟨1, 0⟩, addSegment := false } := by
  obtain ⟨_, _, _, hpf, hpg, _⟩ := static_ok_spec _ _ _ _ _ hp
  refine ⟨?_, ((rejected_false_iff _ _ _).1 hpf).1, hpg, rfl⟩
  obtain ⟨snake, food, explosiveFood, hardMap, running, score, highestscore, foodEatenCount,
    gameovermenu, rng, highestscoreFile, fileWritable⟩ := g
  simp only at hsnake hfood hexp hmap hrun hscore hcount hp
  subst hsnake hfood hmap hrun hscore hcount
  have hmod : ¬ Int.tmod 1 5 = 0 := by decide
  simp [Game.Update, Snake.Update, Vector2Add, List.dropLast, ExplosiveFood.update, hexp,
    Game.CheckCollisionWithFood, Vector2Equals, GenerateRandomPos_eq_static, hp,
    ExplosiveFood.shouldSpawn, hmod, Game.CheckCollisionWithExplosiveFood,
    Game.CheckCollisionWithEdges, Game.edgesEasyBlock, Game.edgesHardBlock, outOfGrid,
    cellCount, Game.CheckCollisionWithTail, ElementInDeque]

/-- Witness of C2 amended: the food moves to the sampled cell (3,4). -/
theorem Update_scenario_eats_food_witness :
    Game.Update false 0 0 (easyRun ⟨7, 9⟩ [3, 4]) =
      .ok { easyRun ⟨3, 4⟩ [] with
            snake := { body := [⟨7, 9⟩, ⟨6, 9⟩, ⟨5, 9⟩], direction := ⟨1, 0⟩, addSegment := true },
            score := 1, foodEatenCount := 1 } :=
  (Update_scenario_eats_food false 0 0 (easyRun ⟨7, 9⟩ [3, 4]) rfl rfl rfl rfl rfl rfl rfl
    ⟨3, 4⟩ [] rfl).1

/-! ## C11: the snake advances and grows -/

/-- C11: for every snake with a non-empty body and `addSegment` true,
`Snake::Update` returns the snake whose body is head + direction followed by
the whole old body; the body is one cell longer, `addSegment` is false
afterwards and the direction is kept. -/
theorem Snake_Update_grows (s : Snake) (head : Vector2) (tail : List Vector2)
    (hbody : s.body = head :: tail) (hadd : s.addSegment = true) :
    ∃ s', s.Update = .ok s' ∧
      s'.body = Vector2Add head s.direction :: s.body ∧
      s'.body.length = s.body.length + 1 ∧ s'.addSegment = false ∧
      s'.direction = s.direction := by
  refine ⟨{ s with body := Vector2Add head s.direction :: s.body, addSegment := false }, ?_,
    rfl, ?_, rfl, rfl⟩
  · simp [Snake.Update, hbody, hadd]
  · simp

/-- Witness of C11: the start snake with a pending growth. -/
theorem Snake_Update_grows_witness :
    ∃ s', Snake.Update { Snake.new with addSegment := true } = .ok s' ∧
      s'.body = Vector2Add ⟨6, 9⟩ ⟨1, 0⟩ :: [⟨6, 9⟩, ⟨5, 9⟩, ⟨4, 9⟩] ∧
      s'.body.length = 3 + 1 ∧ s'.addSegment = false ∧ s'.direction = ⟨1, 0⟩ :=
  Snake_Update_grows { Snake.new with addSegment := true } ⟨6, 9⟩ [⟨5, 9⟩, ⟨4, 9⟩] rfl rfl

/-! ## C12 and C13: when the explosive food may spawn -/

theorem tmod_five_eq_zero_iff (n : Int) : Int.tmod n 5 = 0 ↔ n % 5 = 0 := by
  rw [← Int.dvd_iff_tmod_eq_zero, Int.dvd_iff_emod_eq_zero]

/-- C12: for every integer `foodEatenCount` and every explosive-food state,
`ExplosiveFood::shouldSpawn` is true if and only if `foodEatenCount mod 5 = 0`
and the explosive food is inactive; it only computes a boolean from the state
and the argument, so the state is as before. -/
theorem shouldSpawn_spec (e : ExplosiveFood) (foodEatenCount : Int) :
    e.shouldSpawn foodEatenCount = true ↔ (foodEatenCount % 5 = 0 ∧ e.isActive = false) := by
  simp [ExplosiveFood.shouldSpawn, tmod_five_eq_zero_iff]

/-- C13, as stated, fails: for the count 0, which is no positive multiple of
5, an inactive explosive food answers true (and so it does for -5). -/
theorem shouldSpawn_zero :
    (ExplosiveFood.new none).shouldSpawn 0 = true ∧ ¬ (0 : Int) > 0 ∧
    (ExplosiveFood.new none).shouldSpawn (-5) = true :=
  ⟨by decide, by decide, by decide⟩

/-- C13 amended: `ExplosiveFood::shouldSpawn` returns true only when
`foodEatenCount` is a multiple of 5 (zero and negative multiples included) and
the explosive food is inactive; for a positive argument that is a positive
multiple of 5; an inactive explosive food answers true for 5, 10 and 15, an
active one answers false for 5. -/
theorem shouldSpawn_only_multiples (e : ExplosiveFood) (foodEatenCount : Int) :
    (e.shouldSpawn foodEatenCount = true →
      (∃ k : Int, foodEatenCount = 5 * k) ∧ e.isActive = false) ∧
    (e.shouldSpawn foodEatenCount = true → 0 < foodEatenCount →
      ∃ k : Int, 0 < k ∧ foodEatenCount = 5 * k) ∧
    (e.isActive = false →
      e.shouldSpawn 5 = true ∧ e.shouldSpawn 10 = true ∧ e.shouldSpawn 15 = true) ∧
    (e.isActive = true → e.shouldSpawn 5 = false) := by
  refine ⟨fun h => (shouldSpawn_iff e foodEatenCount).1 h, ?_, ?_, ?_⟩
  · intro h hpos
    obtain ⟨⟨k, hk⟩, _⟩ := (shouldSpawn_iff e foodEatenCount).1 h
    exact ⟨k, by omega, hk⟩
  · intro ha
    refine ⟨?_, ?_, ?_⟩ <;> simp [ExplosiveFood.shouldSpawn, ha] <;> decide
  · intro ha
    simp [ExplosiveFood.shouldSpawn, ha]

/-- Witness of C13 amended: the count 10 with an inactive explosive food. -/
theorem shouldSpawn_only_multiples_witness :
    (ExplosiveFood.new none).shouldSpawn 10 = true ∧ ∃ k : Int, 0 < k ∧ (10 : Int) = 5 * k :=
  ⟨by decide, (shouldSpawn_only_multiples (ExplosiveFood.new none) 10).2.1 (by decide) (by decide)⟩

/-! ## C17: reset of the snake -/

/-- C17: for every snake state, `Snake::Reset` yields the body
[(6,9),(5,9),(4,9)] and the direction (1,0) and keeps `addSegment`; so after
a reset with a pending growth, one `Snake::Update` gives a body of 4 cells. -/
theorem Snake_Reset_spec (s : Snake) :
    s.Reset = { body := [⟨6, 9⟩, ⟨5, 9⟩, ⟨4, 9⟩], direction := ⟨1, 0⟩,
                addSegment := s.addSegment } ∧
    (s.addSegment = true →
      s.Reset.Update = .ok { body := [⟨7, 9⟩, ⟨6, 9⟩, ⟨5, 9⟩, ⟨4, 9⟩], direction := ⟨1, 0⟩,
                             addSegment := false } ∧
      ([⟨7, 9⟩, ⟨6, 9⟩, ⟨5, 9⟩, ⟨4, 9⟩] : List Vector2).length = 4) := by
  refine ⟨rfl, fun h => ⟨?_, rfl⟩⟩
  simp [Snake.Reset, Snake.Update, Snake.startBody, h, Vector2Add]

/-- Witness of C17: a snake elsewhere on the grid with a pending growth. -/
theorem Snake_Reset_spec_witness :
    (Snake.Reset { body := [⟨2, 2⟩, ⟨2, 3⟩], direction := ⟨0, -1⟩, addSegment := true }).Update =
      .ok { body := [⟨7, 9⟩, ⟨6, 9⟩, ⟨5, 9⟩, ⟨4, 9⟩], direction := ⟨1, 0⟩, addSegment := false } :=
  ((Snake_Reset_spec { body := [⟨2, 2⟩, ⟨2, 3⟩], direction := ⟨0, -1⟩,
                       addSegment := true }).2 rfl).1

/-! ## C15: decay of the explosive food's value -/

theorem decayedPoints_ofNat (t : Nat) :
    ExplosiveFood.decayedPoints (t : Int) = ((100 * 9 ^ t / 10 ^ t : Nat) : Int) := rfl

theorem decay_step (t : Nat) : 100 * 9 ^ (t + 1) / 10 ^ (t + 1) ≤ 100 * 9 ^ t / 10 ^ t := by
  have h10 : 0 < 10 := by decide
  calc 100 * 9 ^ (t + 1) / 10 ^ (t + 1)
      ≤ (100 * 9 ^ t * 10) / 10 ^ (t + 1) := by
        apply Nat.div_le_div_right
        rw [pow_succ]
        nlinarith [Nat.zero_le (100 * 9 ^ t)]
    _ = 100 * 9 ^ t / 10 ^ t := by
        rw [pow_succ, Nat.mul_div_mul_right _ _ h10]

theorem decay_antitone (t1 t2 : Nat) (h : t1 ≤ t2) :
    100 * 9 ^ t2 / 10 ^ t2 ≤ 100 * 9 ^ t1 / 10 ^ t1 := by
  induction t2 with
  | zero =>
    have : t1 = 0 := by omega
    subst this
    exact le_refl _
  | succ n ih =>
    rcases Nat.eq_or_lt_of_le h with heq | hlt
    · subst heq
      exact le_refl _
    · exact le_trans (decay_step n) (ih (by omega))

theorem decay_floor (t : Nat) :
    ((100 * 9 ^ t / 10 ^ t : Nat) : Int) = ⌊(100 : ℚ) * (9 / 10) ^ t⌋ := by
  have h : (100 : ℚ) * (9 / 10) ^ t = ((100 * 9 ^ t : Nat) : ℚ) / ((10 ^ t : Nat) : ℚ) := by
    rw [div_pow]
    push_cast
    ring
  rw [h, Rat.floor_natCast_div_natCast]
  norm_cast

theorem update_active_points (e : ExplosiveFood) (hact : e.isActive = true) (t : Nat) :
    (e.update (e.spawnTime + t)).points = ((100 * 9 ^ t / 10 ^ t : Nat) : Int) := by
  have helapsed : e.spawnTime + (t : Int) - e.spawnTime = (t : Int) := by omega
  unfold ExplosiveFood.update
  simp only [hact, Bool.not_true, Bool.false_eq_true, if_false, helapsed]
  split <;> exact decayedPoints_ofNat t

/-- C15: for an active explosive food updated `t >= 0` whole seconds after its
spawn time, `ExplosiveFood::update` sets `points` to the real number
`100 * 0.9 ^ t` truncated to an integer; this value is non-increasing in `t`,
is the base value 100 at `t = 0` and is below 100 for every `t > 0`. (The
source computes the product in `double`; the embedding uses its exact value.) -/
theorem update_points_decay (e : ExplosiveFood) (hact : e.isActive = true) :
    (∀ t : Nat, (e.update (e.spawnTime + t)).points = ⌊(100 : ℚ) * (9 / 10) ^ t⌋) ∧
    (∀ t1 t2 : Nat, t1 ≤ t2 →
      (e.update (e.spawnTime + t2)).points ≤ (e.update (e.spawnTime + t1)).points) ∧
    (e.update (e.spawnTime + (0 : Nat))).points = ExplosiveFood.basePoints ∧
    (∀ t : Nat, 0 < t → (e.update (e.spawnTime + t)).points < ExplosiveFood.basePoints) := by
  refine ⟨fun t => ?_, fun t1 t2 h => ?_, ?_, fun t ht => ?_⟩
  · rw [update_active_points e hact, decay_floor]
  · rw [update_active_points e hact, update_active_points e hact]
    exact_mod_cast decay_antitone t1 t2 h
  · rw [update_active_points e hact]
    rfl
  · rw [update_active_points e hact]
    have h1 := decay_antitone 1 t ht
    have h90 : 100 * 9 ^ 1 / 10 ^ 1 = 90 := by norm_num
    have : ((100 * 9 ^ t / 10 ^ t : Nat) : Int) ≤ 90 := by
      rw [h90] at h1
      exact_mod_cast h1
    simp only [ExplosiveFood.basePoints]
    omega

/-- Witness of C15: an explosive food spawned at time 1000 is worth 72 points
at time 1003. -/
theorem update_points_decay_witness :
    (ExplosiveFood.update { map := none, position := ⟨8, 8⟩, points := 100, spawnTime := 1000,
                            isActive := true } 1003).points = 72 ∧
    (72 : Int) < ExplosiveFood.basePoints :=
  have h := update_points_decay ⟨none, ⟨8, 8⟩, 100, 1000, true⟩ rfl
  ⟨rfl, h.2.2.2 3 (by decide)⟩

/-! ## The steps of `Game::Update` -/

theorem GameOver_ok_inv (g g' : Game) (h : g.GameOver = .ok g') :
    ∃ p rest, Food.GenerateRandomPosStatic Snake.startBody g.food.map g.rng = .ok (p, rest) ∧
      g' = { g with
             highestscore := max g.highestscore g.score
             highestscoreFile :=
               if g.score > g.highestscore ∧ g.fileWritable = true then
                  g.score :: g.highestscoreFile
               else g.highestscoreFile
             snake := { body := Snake.startBody, direction := ⟨1, 0⟩,
                        addSegment := g.snake.addSegment }
             food := { position := p, map := g.food.map }
             explosiveFood := { g.explosiveFood with isActive := false }
             running := false
             gameovermenu := true
             rng := rest } := by
  rw [GameOver_eq] at h
  cases hres : Food.GenerateRandomPosStatic Snake.startBody g.food.map g.rng with
  | error f => rw [hres] at h; cases h
  | ok v =>
    obtain ⟨p, rest⟩ := v
    rw [hres] at h
    simp only [Except.ok.injEq] at h
    exact ⟨p, rest, rfl, h.symm⟩

theorem GameOver_ok_state (g g' : Game) (h : g.GameOver = .ok g') : GameOverState g g' := by
  obtain ⟨p, rest, hp, rfl⟩ := GameOver_ok_inv g g' h
  obtain ⟨_, _, _, hpf, hpg, _⟩ := static_ok_spec _ _ _ _ _ hp
  exact ⟨rfl, rfl, rfl, rfl, rfl, (rejected_false_iff _ _ _).1 hpf, hpg⟩

theorem GameOver_ok_fields (g g' : Game) (h : g.GameOver = .ok g') :
    g'.score = g.score ∧ g'.foodEatenCount = g.foodEatenCount ∧ g'.hardMap = g.hardMap ∧
    g'.food.map = g.food.map ∧ g'.explosiveFood.map = g.explosiveFood.map ∧
    g'.explosiveFood.position = g.explosiveFood.position := by
  obtain ⟨p, rest, _, rfl⟩ := GameOver_ok_inv g g' h
  exact ⟨rfl, rfl, rfl, rfl, rfl, rfl⟩

theorem AfterGameOvers_fields (g g' : Game) (h : AfterGameOvers g g') :
    g'.score = g.score ∧ g'.foodEatenCount = g.foodEatenCount ∧ g'.hardMap = g.hardMap ∧
    g'.food.map = g.food.map ∧ g'.explosiveFood.map = g.explosiveFood.map ∧
    g'.explosiveFood.position = g.explosiveFood.position := by
  induction h with
  | same g => exact ⟨rfl, rfl, rfl, rfl, rfl, rfl⟩
  | again g g1 g' hgo _ ih =>
    obtain ⟨h1, h2, h3, h4, h5, h6⟩ := GameOver_ok_fields g g1 hgo
    obtain ⟨i1, i2, i3, i4, i5, i6⟩ := ih
    exact ⟨i1.trans h1, i2.trans h2, i3.trans h3, i4.trans h4, i5.trans h5, i6.trans h6⟩

theorem AfterGameOvers_cases (g g' : Game) (h : AfterGameOvers g g') :
    g' = g ∨ ∃ g1, GameOverState g1 g' := by
  induction h with
  | same g => exact Or.inl rfl
  | again g g1 g' hgo _ ih =>
    rcases ih with rfl | ⟨g2, hst⟩
    · exact Or.inr ⟨g, GameOver_ok_state g _ hgo⟩
    · exact Or.inr ⟨g2, hst⟩

theorem AfterGameOvers_trans (g g1 g' : Game) (h1 : AfterGameOvers g g1)
    (h2 : AfterGameOvers g1 g') : AfterGameOvers g g' := by
  induction h1 with
  | same g => exact h2
  | again g ga gb hgo _ ih => exact AfterGameOvers.again g ga _ hgo (ih h2)

theorem edgesEasyBlock_after (isHardMode : Bool) (g g' : Game) (head : Vector2)
    (tail : List Vector2) (hbody : g.snake.body = head :: tail)
    (h : Game.edgesEasyBlock isHardMode g = .ok g') : AfterGameOvers g g' := by
  rcases edgesEasyBlock_cases isHardMode g head tail hbody with he | he
  · rw [he] at h; cases h; exact AfterGameOvers.same g
  · rw [he] at h; exact AfterGameOvers.again g g' g' h (AfterGameOvers.same g')

theorem edgesHardBlock_after (g g' : Game) (head : Vector2)
    (tail : List Vector2) (hbody : g.snake.body = head :: tail)
    (h : g.edgesHardBlock = .ok g') : AfterGameOvers g g' := by
  rcases edgesHardBlock_cases g head tail hbody with he | he
  · rw [he] at h; cases h; exact AfterGameOvers.same g
  · rw [he] at h; exact AfterGameOvers.again g g' g' h (AfterGameOvers.same g')

theorem AfterGameOvers_body (g g' : Game) (head : Vector2) (tail : List Vector2)
    (hbody : g.snake.body = head :: tail) (h : AfterGameOvers g g') :
    ∃ head' tail', g'.snake.body = head' :: tail' := by
  rcases AfterGameOvers_cases g g' h with rfl | ⟨g1, hst⟩
  · exact ⟨head, tail, hbody⟩
  · exact ⟨_, _, hst.body⟩

theorem CheckCollisionWithEdges_after (isHardMode : Bool) (g g' : Game) (head : Vector2)
    (tail : List Vector2) (hbody : g.snake.body = head :: tail)
    (h : g.CheckCollisionWithEdges isHardMode = .ok g') : AfterGameOvers g g' := by
  unfold Game.CheckCollisionWithEdges at h
  cases he : Game.edgesEasyBlock isHardMode g with
  | error f => rw [he] at h; cases h
  | ok g1 =>
    rw [he] at h
    simp only at h
    have h1 := edgesEasyBlock_after isHardMode g g1 head tail hbody he
    obtain ⟨head1, tail1, hb1⟩ := AfterGameOvers_body g g1 head tail hbody h1
    exact AfterGameOvers_trans g g1 g' h1 (edgesHardBlock_after g1 g' head1 tail1 hb1 h)

theorem CheckCollisionWithTail_after (g g' : Game) (h : g.CheckCollisionWithTail = .ok g') :
    AfterGameOvers g g' := by
  unfold Game.CheckCollisionWithTail at h
  split at h
  · cases h
  · split at h
    · exact AfterGameOvers.again g g' g' h (AfterGameOvers.same g')
    · cases h; exact AfterGameOvers.same g

theorem CheckCollisionWithEdges_not_fatal (isHardMode : Bool) (g : Game) (head : Vector2)
    (tail : List Vector2) (hbody : g.snake.body = head :: tail) (hin : InGrid head)
    (hwall : ∀ m, g.hardMap = some m → m.CheckCollisionWithRect (headRect head) = false) :
    g.CheckCollisionWithEdges isHardMode = .ok g := by
  have ho : outOfGrid head = false := (outOfGrid_false_iff head).2 hin
  have he : Game.edgesEasyBlock isHardMode g = .ok g := by
    simp [Game.edgesEasyBlock, hbody, ho]
  unfold Game.CheckCollisionWithEdges
  rw [he]
  cases hm : g.hardMap with
  | none => simp [Game.edgesHardBlock, hm]
  | some m => simp [Game.edgesHardBlock, hm, hbody, ho, hwall m hm]

theorem CheckCollisionWithTail_not_fatal (g : Game) (head : Vector2)
    (tail : List Vector2) (hbody : g.snake.body = head :: tail) (hno : head ∉ tail) :
    g.CheckCollisionWithTail = .ok g := by
  have : ElementInDeque head tail = false := by
    cases hv : ElementInDeque head tail with
    | false => rfl
    | true => exact absurd ((ElementInDeque_iff head tail).1 hv) hno
  simp [Game.CheckCollisionWithTail, hbody, this]

theorem Snake_Update_ok_inv (s s' : Snake) (h : s.Update = .ok s') :
    ∃ head tail, s.body = head :: tail ∧ s'.direction = s.direction ∧
      s'.addSegment = false ∧
      s'.body = Vector2Add head s.direction ::
        (if s.addSegment = true then s.body else s.body.dropLast) := by
  unfold Snake.Update at h
  split at h
  · cases h
  · rename_i head tail hb
    refine ⟨head, tail, hb, ?_⟩
    by_cases ha : s.addSegment = true
    · simp only [ha, beq_self_eq_true, if_true, Except.ok.injEq] at h
      subst h
      simp [ha]
    · have ha' : s.addSegment = false := by simpa using ha
      simp [ha'] at h
      subst h
      simp [ha', hb]

theorem CheckCollisionWithFood_ok_cases (now : Int) (g g3 : Game) (head : Vector2)
    (tail : List Vector2) (hbody : g.snake.body = head :: tail)
    (h : g.CheckCollisionWithFood now = .ok g3) :
    (head ≠ g.food.position ∧ g3 = g) ∨
    (head = g.food.position ∧
      ∃ p rest, Food.GenerateRandomPosStatic g.snake.body g.food.map g.rng = .ok (p, rest) ∧
        ((g.explosiveFood.shouldSpawn (g.foodEatenCount + 1) = false ∧
          g3 = { g with food := { position := p, map := g.food.map }
                        snake := { g.snake with addSegment := true }
                        score := g.score + 1
                        foodEatenCount := g.foodEatenCount + 1
                        rng := rest }) ∨
         (g.explosiveFood.shouldSpawn (g.foodEatenCount + 1) = true ∧
          ∃ q rest', Food.GenerateRandomPosStatic g.snake.body g.explosiveFood.map rest
              = .ok (q, rest') ∧
            g3 = { g with food := { position := p, map := g.food.map }
                          snake := { g.snake with addSegment := true }
                          score := g.score + 1
                          foodEatenCount := g.foodEatenCount + 1
                          explosiveFood := { map := g.explosiveFood.map, position := q,
                                             points := 100, spawnTime := now,
                                             isActive := true }
                          rng := rest' }))) := by
  by_cases hpos : head = g.food.position
  · right
    refine ⟨hpos, ?_⟩
    have heq : Vector2Equals head g.food.position = true := (Vector2Equals_iff _ _).2 hpos
    simp only [Game.CheckCollisionWithFood, hbody, heq, if_true,
      GenerateRandomPos_eq_static] at h
    rw [hbody]
    cases hp : Food.GenerateRandomPosStatic (head :: tail) g.food.map g.rng with
    | error f => rw [hp] at h; cases h
    | ok v =>
      obtain ⟨p, rest⟩ := v
      rw [hp] at h
      simp only at h
      refine ⟨p, rest, rfl, ?_⟩
      cases hs : g.explosiveFood.shouldSpawn (g.foodEatenCount + 1) with
      | false =>
        left
        rw [hs] at h
        simp only [Bool.false_eq_true, if_false, Except.ok.injEq] at h
        exact ⟨rfl, by rw [← h]; simp only [hbody]⟩
      | true =>
        right
        rw [hs] at h
        simp only [if_true, ExplosiveFood.spawn] at h
        cases hq : Food.GenerateRandomPosStatic (head :: tail) g.explosiveFood.map rest with
        | error f => rw [hq] at h; cases h
        | ok w =>
          obtain ⟨q, rest'⟩ := w
          rw [hq] at h
          simp only [Except.ok.injEq] at h
          exact ⟨rfl, q, rest', rfl, by rw [← h]; simp only [hbody, ExplosiveFood.basePoints]⟩
  · left
    have heq : Vector2Equals head g.food.position = false := by
      cases hv : Vector2Equals head g.food.position with
      | false => rfl
      | true => exact absurd ((Vector2Equals_iff _ _).1 hv) hpos
    simp only [Game.CheckCollisionWithFood, hbody, heq, Bool.false_eq_true, if_false,
      Except.ok.injEq] at h
    exact ⟨hpos, h.symm⟩

theorem CheckCollisionWithExplosiveFood_ok_cases (g g4 : Game)
    (h : g.CheckCollisionWithExplosiveFood = .ok g4) :
    (g4 = g ∧ (g.explosiveFood.isActive = true →
        ∀ head tail, g.snake.body = head :: tail → head ≠ g.explosiveFood.position)) ∨
    (g.explosiveFood.isActive = true ∧
      (∃ tail, g.snake.body = g.explosiveFood.position :: tail) ∧
      g4 = { g with score := g.score + g.explosiveFood.points
                    explosiveFood := { g.explosiveFood with isActive := false }
                    snake := { g.snake with addSegment := true } }) := by
  unfold Game.CheckCollisionWithExplosiveFood at h
  by_cases ha : g.explosiveFood.isActive = true
  · rw [if_pos ha] at h
    split at h
    · cases h
    · rename_i head tail hb
      by_cases hpos : head = g.explosiveFood.position
      · right
        have heq : Vector2Equals head g.explosiveFood.position = true :=
          (Vector2Equals_iff _ _).2 hpos
        simp only [heq, if_true, Except.ok.injEq, ExplosiveFood.eat] at h
        exact ⟨ha, ⟨tail, by rw [hb, hpos]⟩, h.symm⟩
      · left
        have heq : Vector2Equals head g.explosiveFood.position = false := by
          cases hv : Vector2Equals head g.explosiveFood.position with
          | false => rfl
          | true => exact absurd ((Vector2Equals_iff _ _).1 hv) hpos
        simp only [heq, Bool.false_eq_true, if_false, Except.ok.injEq] at h
        refine ⟨h.symm, fun _ head' tail' hb' => ?_⟩
        rw [hb] at hb'
        cases hb'
        exact hpos
  · rw [if_neg ha] at h
    simp only [Except.ok.injEq] at h
    exact Or.inl ⟨h.symm, fun ha' => absurd ha' ha⟩

theorem Update_ok_inv (isHardMode : Bool) (tUpdate tSpawn : Int) (g g' : Game)
    (hrun : g.running = true) (h : g.Update isHardMode tUpdate tSpawn = .ok g') :
    ∃ snake g3 g4 g5, g.snake.Update = .ok snake ∧
      Game.CheckCollisionWithFood tSpawn
        { g with snake := snake, explosiveFood := g.explosiveFood.update tUpdate } = .ok g3 ∧
      g3.CheckCollisionWithExplosiveFood = .ok g4 ∧
      g4.CheckCollisionWithEdges isHardMode = .ok g5 ∧
      g5.CheckCollisionWithTail = .ok g' := by
  unfold Game.Update at h
  rw [if_pos hrun] at h
  cases h1 : g.snake.Update with
  | error f => rw [h1] at h; cases h
  | ok snake =>
    rw [h1] at h
    simp only at h
    cases h3 : Game.CheckCollisionWithFood tSpawn
        { g with snake := snake, explosiveFood := g.explosiveFood.update tUpdate } with
    | error f => rw [h3] at h; cases h
    | ok g3 =>
      rw [h3] at h
      simp only at h
      cases h4 : g3.CheckCollisionWithExplosiveFood with
      | error f => rw [h4] at h; cases h
      | ok g4 =>
        rw [h4] at h
        simp only at h
        cases h5 : g4.CheckCollisionWithEdges isHardMode with
        | error f => rw [h5] at h; cases h
        | ok g5 =>
          rw [h5] at h
          simp only at h
          exact ⟨snake, g3, g4, g5, rfl, h3, h4, h5, h⟩

theorem Update_not_running (isHardMode : Bool) (tUpdate tSpawn : Int) (g : Game)
    (hrun : g.running = false) : g.Update isHardMode tUpdate tSpawn = .ok g := by
  simp [Game.Update, hrun]

theorem update_expired (e : ExplosiveFood) (now : Int)
    (h : now - e.spawnTime ≥ ExplosiveFood.duration) : (e.update now).isActive = false := by
  unfold ExplosiveFood.update
  cases ha : e.isActive with
  | false => simpa using ha
  | true => simp [h]

theorem update_fields (e : ExplosiveFood) (now : Int) :
    (e.update now).map = e.map ∧ (e.update now).position = e.position ∧
    (e.update now).spawnTime = e.spawnTime ∧
    ((e.update now).isActive = true → e.isActive = true) := by
  unfold ExplosiveFood.update
  cases ha : e.isActive with
  | false => simpa using ha
  | true =>
    by_cases h : now - e.spawnTime ≥ ExplosiveFood.duration
    · simp [h]
    · simp [h]

theorem CheckCollisionWithFood_error (now : Int) (g : Game) (head : Vector2)
    (tail : List Vector2) (hbody : g.snake.body = head :: tail) (f : Fault)
    (h : g.CheckCollisionWithFood now = .error f) : f = Fault.noSample := by
  simp only [Game.CheckCollisionWithFood, hbody, GenerateRandomPos_eq_static] at h
  split at h
  · cases hp : Food.GenerateRandomPosStatic (head :: tail) g.food.map g.rng with
    | error f' =>
      rw [hp] at h
      simp only [Except.error.injEq] at h
      rw [← h]
      exact (static_error_spec _ _ _ _ hp).1
    | ok v =>
      obtain ⟨p, rest⟩ := v
      rw [hp] at h
      simp only at h
      split at h
      · simp only [ExplosiveFood.spawn] at h
        cases hq : Food.GenerateRandomPosStatic (head :: tail) g.explosiveFood.map rest with
        | error f' =>
          rw [hq] at h
          simp only [Except.error.injEq] at h
          rw [← h]
          exact (static_error_spec _ _ _ _ hq).1
        | ok w => obtain ⟨q, rest'⟩ := w; rw [hq] at h; cases h
      · cases h
  · cases h

theorem CheckCollisionWithFood_body (now : Int) (g g3 : Game)
    (h : g.CheckCollisionWithFood now = .ok g3) :
    g3.snake.body = g.snake.body ∧ g3.snake.direction = g.snake.direction ∧
    g3.hardMap = g.hardMap ∧ g3.food.map = g.food.map ∧
    g3.explosiveFood.map = g.explosiveFood.map ∧ g3.running = g.running ∧
    g3.gameovermenu = g.gameovermenu ∧ g3.highestscore = g.highestscore := by
  cases hb : g.snake.body with
  | nil => simp [Game.CheckCollisionWithFood, hb] at h
  | cons head tail =>
    rcases CheckCollisionWithFood_ok_cases now g g3 head tail hb h with
      ⟨_, rfl⟩ | ⟨_, p, rest, _, ⟨_, rfl⟩ | ⟨_, q, rest', _, rfl⟩⟩
    · exact ⟨hb, rfl, rfl, rfl, rfl, rfl, rfl, rfl⟩
    · exact ⟨hb, rfl, rfl, rfl, rfl, rfl, rfl, rfl⟩
    · exact ⟨hb, rfl, rfl, rfl, rfl, rfl, rfl, rfl⟩

theorem CheckCollisionWithExplosiveFood_body (g g4 : Game)
    (h : g.CheckCollisionWithExplosiveFood = .ok g4) :
    g4.snake.body = g.snake.body ∧ g4.snake.direction = g.snake.direction ∧
    g4.hardMap = g.hardMap ∧ g4.food = g.food ∧
    g4.explosiveFood.map = g.explosiveFood.map ∧ g4.running = g.running ∧
    g4.gameovermenu = g.gameovermenu ∧ g4.highestscore = g.highestscore ∧
    g4.foodEatenCount = g.foodEatenCount := by
  rcases CheckCollisionWithExplosiveFood_ok_cases g g4 h with ⟨rfl, _⟩ | ⟨_, _, rfl⟩
  · exact ⟨rfl, rfl, rfl, rfl, rfl, rfl, rfl, rfl, rfl⟩
  · exact ⟨rfl, rfl, rfl, rfl, rfl, rfl, rfl, rfl, rfl⟩

theorem CheckCollisionWithExplosiveFood_error (g : Game) (head : Vector2)
    (tail : List Vector2) (hbody : g.snake.body = head :: tail) (f : Fault) :
    g.CheckCollisionWithExplosiveFood ≠ .error f := by
  unfold Game.CheckCollisionWithExplosiveFood
  rw [hbody]
  intro h
  split at h
  · simp only at h
    split at h <;> cases h
  · cases h

theorem CheckCollisionWithTail_error (g : Game) (head : Vector2)
    (tail : List Vector2) (hbody : g.snake.body = head :: tail) (f : Fault)
    (h : g.CheckCollisionWithTail = .error f) : f = Fault.noSample := by
  simp only [Game.CheckCollisionWithTail, hbody] at h
  split at h
  · exact GameOver_error g f h
  · cases h

theorem Update_error (isHardMode : Bool) (tUpdate tSpawn : Int) (g : Game) (head : Vector2)
    (tail : List Vector2) (hbody : g.snake.body = head :: tail) (f : Fault)
    (h : g.Update isHardMode tUpdate tSpawn = .error f) : f = Fault.noSample := by
  unfold Game.Update at h
  split at h
  · cases h1 : g.snake.Update with
    | error f' => simp [Snake.Update, hbody] at h1; split at h1 <;> cases h1
    | ok snake =>
      obtain ⟨_, _, _, _, _, hsb⟩ := Snake_Update_ok_inv g.snake snake h1
      rw [h1] at h
      simp only at h
      cases h3 : Game.CheckCollisionWithFood tSpawn
          { g with snake := snake, explosiveFood := g.explosiveFood.update tUpdate } with
      | error f' =>
        rw [h3] at h
        simp only [Except.error.injEq] at h
        rw [← h]
        exact CheckCollisionWithFood_error tSpawn _ _ _ hsb f' h3
      | ok g3 =>
        rw [h3] at h
        simp only at h
        have hb3 : g3.snake.body = _ :: _ :=
          (CheckCollisionWithFood_body tSpawn _ g3 h3).1.trans hsb
        cases h4 : g3.CheckCollisionWithExplosiveFood with
        | error f' => exact absurd h4 (CheckCollisionWithExplosiveFood_error g3 _ _ hb3 f')
        | ok g4 =>
          rw [h4] at h
          simp only at h
          have hb4 : g4.snake.body = _ :: _ :=
            (CheckCollisionWithExplosiveFood_body g3 g4 h4).1.trans hb3
          cases h5 : g4.CheckCollisionWithEdges isHardMode with
          | error f' =>
            rw [h5] at h
            simp only [Except.error.injEq] at h
            rw [← h]
            exact CheckCollisionWithEdges_error isHardMode g4 _ _ hb4 f' h5
          | ok g5 =>
            rw [h5] at h
            simp only at h
            obtain ⟨head5, tail5, hb5⟩ := AfterGameOvers_body g4 g5 _ _ hb4
              (CheckCollisionWithEdges_after isHardMode g4 g5 _ _ hb4 h5)
            exact CheckCollisionWithTail_error g5 head5 tail5 hb5 f h
  · cases h

theorem CheckCollisionWithFood_miss (now : Int) (g : Game) (head : Vector2)
    (tail : List Vector2) (hbody : g.snake.body = head :: tail)
    (hne : head ≠ g.food.position) : g.CheckCollisionWithFood now = .ok g := by
  have heq : Vector2Equals head g.food.position = false := by
    cases hv : Vector2Equals head g.food.position with
    | false => rfl
    | true => exact absurd ((Vector2Equals_iff _ _).1 hv) hne
  simp [Game.CheckCollisionWithFood, hbody, heq]

theorem CheckCollisionWithExplosiveFood_miss (g : Game) (head : Vector2)
    (tail : List Vector2) (hbody : g.snake.body = head :: tail)
    (hne : g.explosiveFood.isActive = true → head ≠ g.explosiveFood.position) :
    g.CheckCollisionWithExplosiveFood = .ok g := by
  cases ha : g.explosiveFood.isActive with
  | false => simp [Game.CheckCollisionWithExplosiveFood, ha]
  | true =>
    have heq : Vector2Equals head g.explosiveFood.position = false := by
      cases hv : Vector2Equals head g.explosiveFood.position with
      | false => rfl
      | true => exact absurd ((Vector2Equals_iff _ _).1 hv) (hne ha)
    simp [Game.CheckCollisionWithExplosiveFood, ha, hbody, heq]

/-- A tick in which nothing is picked up and nothing is hit only moves the
snake and updates the explosive food. -/
theorem Update_quiet (isHardMode : Bool) (tUpdate tSpawn : Int) (g : Game) (snake : Snake)
    (head' : Vector2) (tail' : List Vector2) (hrun : g.running = true)
    (hs : g.snake.Update = .ok snake) (hb : snake.body = head' :: tail')
    (hfood : head' ≠ g.food.position)
    (hexp : (g.explosiveFood.update tUpdate).isActive = true →
      head' ≠ g.explosiveFood.position)
    (hin : InGrid head')
    (hwall : ∀ m, g.hardMap = some m → m.CheckCollisionWithRect (headRect head') = false)
    (hself : head' ∉ tail') :
    g.Update isHardMode tUpdate tSpawn =
      .ok { g with snake := snake, explosiveFood := g.explosiveFood.update tUpdate } := by
  have h3 := CheckCollisionWithFood_miss tSpawn
    { g with snake := snake, explosiveFood := g.explosiveFood.update tUpdate } head' tail' hb hfood
  have h4 := CheckCollisionWithExplosiveFood_miss
    { g with snake := snake, explosiveFood := g.explosiveFood.update tUpdate } head' tail' hb
    (fun ha => by rw [(update_fields g.explosiveFood tUpdate).2.1]; exact hexp ha)
  have h5 := CheckCollisionWithEdges_not_fatal isHardMode
    { g with snake := snake, explosiveFood := g.explosiveFood.update tUpdate } head' tail' hb
    hin hwall
  have h6 := CheckCollisionWithTail_not_fatal
    { g with snake := snake, explosiveFood := g.explosiveFood.update tUpdate } head' tail' hb
    hself
  unfold Game.Update
  rw [if_pos hrun, hs]
  simp only
  rw [h3]
  simp only
  rw [h4]
  simp only
  rw [h5]
  simp only
  rw [h6]

/-- The score after a tick that starts with the explosive food inactive once
`ExplosiveFood::update` has run: only the regular food can add to it. -/
theorem Update_score_of_expired (isHardMode : Bool) (tUpdate tSpawn : Int) (g g' : Game)
    (head : Vector2) (tail : List Vector2) (hrun : g.running = true)
    (hbody : g.snake.body = head :: tail)
    (hexp : (g.explosiveFood.update tUpdate).isActive = false)
    (h : g.Update isHardMode tUpdate tSpawn = .ok g') :
    g'.score = g.score +
      (if Vector2Add head g.snake.direction = g.food.position then 1 else 0) := by
  obtain ⟨snake, g3, g4, g5, h1, h3, h4, h5, h6⟩ :=
    Update_ok_inv isHardMode tUpdate tSpawn g g' hrun h
  obtain ⟨hd, tl, hb0, _, _, hsb⟩ := Snake_Update_ok_inv g.snake snake h1
  rw [hbody] at hb0
  cases hb0
  have hb3 : g3.snake.body = _ :: _ := (CheckCollisionWithFood_body tSpawn _ g3 h3).1.trans hsb
  have hb4 : g4.snake.body = _ :: _ :=
    (CheckCollisionWithExplosiveFood_body g3 g4 h4).1.trans hb3
  have h56 : AfterGameOvers g4 g' :=
    AfterGameOvers_trans g4 g5 g' (CheckCollisionWithEdges_after isHardMode g4 g5 _ _ hb4 h5)
      (CheckCollisionWithTail_after g5 g' h6)
  rw [(AfterGameOvers_fields g4 g' h56).1]
  rcases CheckCollisionWithFood_ok_cases tSpawn _ g3 _ _ hsb h3 with
    ⟨hne, rfl⟩ | ⟨heq, p, rest, _, ⟨_, rfl⟩ | ⟨_, q, rest', hq, rfl⟩⟩
  · rcases CheckCollisionWithExplosiveFood_ok_cases _ g4 h4 with ⟨rfl, _⟩ | ⟨ha, _, _⟩
    · simp only at hne ⊢
      rw [if_neg hne]
      omega
    · simp only at ha
      rw [hexp] at ha
      cases ha
  · rcases CheckCollisionWithExplosiveFood_ok_cases _ g4 h4 with ⟨rfl, _⟩ | ⟨ha, _, _⟩
    · simp only at heq ⊢
      rw [if_pos heq]
    · simp only at ha
      rw [hexp] at ha
      cases ha
  · rcases CheckCollisionWithExplosiveFood_ok_cases _ g4 h4 with ⟨rfl, _⟩ | ⟨_, ⟨tl', hq'⟩, _⟩
    · simp only at heq ⊢
      rw [if_pos heq]
    · simp only at hq' hq
      obtain ⟨_, _, _, hqf, _, _⟩ := static_ok_spec _ _ _ _ _ hq
      have hfree := ((rejected_false_iff _ _ _).1 hqf).1
      rw [hq'] at hfree
      exact absurd (List.mem_cons_self _ _) hfree

/-! ## C14: expiry of the explosive food -/

/-- C14: for every explosive-food state, active or not, after
`ExplosiveFood::update` at a time 7 or more seconds past the spawn time the
explosive food is inactive; an active one updated at less than 7 seconds stays
active; and in a tick of `Game::Update` whose update runs at 7 or more
seconds, wherever the head lands (in particular on the explosive food's
cell), every returned state has the old score plus 1 exactly when the head
landed on the regular food, so the explosive food awards nothing; the tick
fails to return only when the samples run out, and when the head lands on the
explosive food's cell and nothing else is picked up or hit the tick returns
the state with the moved snake, the explosive food inactive and the score
unchanged. -/
theorem update_expires :
    (∀ (e : ExplosiveFood) (now : Int), now - e.spawnTime ≥ 7 →
      (e.update now).isActive = false) ∧
    (∀ (e : ExplosiveFood) (now : Int), e.isActive = true → now - e.spawnTime < 7 →
      (e.update now).isActive = true) ∧
    (∀ (isHardMode : Bool) (tUpdate tSpawn : Int) (g : Game) (head : Vector2)
        (tail : List Vector2),
      g.running = true → g.snake.body = head :: tail →
      tUpdate - g.explosiveFood.spawnTime ≥ 7 →
      (∀ g', g.Update isHardMode tUpdate tSpawn = .ok g' →
        g'.score = g.score +
          (if Vector2Add head g.snake.direction = g.food.position then 1 else 0)) ∧
      (∀ f, g.Update isHardMode tUpdate tSpawn = .error f → f = Fault.noSample) ∧
      (∀ snake head' tail', g.snake.Update = .ok snake → snake.body = head' :: tail' →
        head' = g.explosiveFood.position → head' ≠ g.food.position → InGrid head' →
        (∀ m, g.hardMap = some m → ∀ w ∈ m.walls,
          CheckCollisionRecs w.rect (headRect head') = false) →
        head' ∉ tail' →
        g.Update isHardMode tUpdate tSpawn =
          .ok { g with snake := snake,
                       explosiveFood := { g.explosiveFood.update tUpdate with
                                          isActive := false } })) := by
  refine ⟨fun e now h => update_expired e now h, ?_, ?_⟩
  · intro e now ha hlt
    have hnot : ¬ now - e.spawnTime ≥ ExplosiveFood.duration := by
      simp only [ExplosiveFood.duration]; omega
    simp [ExplosiveFood.update, ha, hnot]
  · intro isHardMode tUpdate tSpawn g head tail hrun hbody hlate
    have hexp : (g.explosiveFood.update tUpdate).isActive = false :=
      update_expired g.explosiveFood tUpdate hlate
    refine ⟨fun g' h => Update_score_of_expired isHardMode tUpdate tSpawn g g' head tail hrun
      hbody hexp h, fun f h => Update_error isHardMode tUpdate tSpawn g head tail hbody f h, ?_⟩
    intro snake head' tail' hs hb _ hfood hin hwall hself
    have hsame : ({ g.explosiveFood.update tUpdate with isActive := false } : ExplosiveFood)
        = g.explosiveFood.update tUpdate := by
      cases hu : g.explosiveFood.update tUpdate with
      | mk m pos pts st act =>
        rw [hu] at hexp
        simp only at hexp
        rw [hexp]
    rw [hsame]
    refine Update_quiet isHardMode tUpdate tSpawn g snake head' tail' hrun hs hb hfood
      (fun ha => by rw [hexp] at ha; cases ha) hin ?_ hself
    intro m hm
    cases hv : m.CheckCollisionWithRect (headRect head') with
    | false => rfl
    | true =>
      obtain ⟨w, hw, hcol⟩ := (CheckCollisionWithRect_iff m _).1 hv
      rw [hwall m hm w hw] at hcol
      cases hcol

/-- Witness of C14: the explosive food spawned at time 1000 lies at (7,9); the
tick at time 1007 moves the head onto it and the score stays 0. -/
theorem update_expires_witness :
    Game.Update false 1007 1007
        { easyRun ⟨12, 12⟩ [] with
          explosiveFood := { map := none, position := ⟨7, 9⟩, points := 100,
                             spawnTime := 1000, isActive := true } } =
      .ok { easyRun ⟨12, 12⟩ [] with
            snake := { body := [⟨7, 9⟩, ⟨6, 9⟩, ⟨5, 9⟩], direction := ⟨1, 0⟩,
                       addSegment := false },
            explosiveFood := { map := none, position := ⟨7, 9⟩, points := 47,
                               spawnTime := 1000, isActive := false } } :=
  (update_expires.2.2 false 1007 1007
      { easyRun ⟨12, 12⟩ [] with
        explosiveFood := { map := none, position := ⟨7, 9⟩, points := 100,
                           spawnTime := 1000, isActive := true } }
      ⟨6, 9⟩ [⟨5, 9⟩, ⟨4, 9⟩] rfl rfl (by decide)).2.2
    { body := [⟨7, 9⟩, ⟨6, 9⟩, ⟨5, 9⟩], direction := ⟨1, 0⟩, addSegment := false }
    ⟨7, 9⟩ [⟨6, 9⟩, ⟨5, 9⟩] rfl rfl rfl (by decide) (by decide)
    (fun m hm => by cases hm) (by decide)

/-! ## C16: direction input -/

theorem directionInput_facts (d : Vector2) (hd : IsHeading d) (allowMove : Bool) (keys : Keys) :
    (directionInput keys ⟨d, allowMove, 0⟩).direction ≠ reverse d ∧
    IsHeading (directionInput keys ⟨d, allowMove, 0⟩).direction ∧
    ((directionInput keys ⟨d, allowMove, 0⟩).direction ≠ d → allowMove = true) ∧
    (directionInput keys ⟨d, allowMove, 0⟩).accepted ≤ 1 ∧
    ((directionInput keys ⟨d, allowMove, 0⟩).accepted = 1 →
      (directionInput keys ⟨d, allowMove, 0⟩).allowMove = false) ∧
    ((directionInput keys ⟨d, allowMove, 0⟩).accepted = 0 →
      (directionInput keys ⟨d, allowMove, 0⟩).direction = d ∧
      (directionInput keys ⟨d, allowMove, 0⟩).allowMove = allowMove) ∧
    (allowMove = false → (directionInput keys ⟨d, allowMove, 0⟩).accepted = 0) := by
  obtain ⟨up, down, left, right⟩ := keys
  unfold IsHeading at hd ⊢
  rcases hd with rfl | rfl | rfl | rfl <;>
    cases allowMove <;> cases up <;> cases down <;> cases left <;> cases right <;> decide

theorem directionInput_locked (d : Vector2) (n : Nat) (keys : Keys) :
    directionInput keys ⟨d, false, n⟩ = ⟨d, false, n⟩ := by
  simp [directionInput, acceptKey]

theorem IsHeading_ne_reverse (d : Vector2) (hd : IsHeading d) : d ≠ reverse d := by
  unfold IsHeading at hd
  rcases hd with rfl | rfl | rfl | rfl <;> decide

theorem handleInput_keeps (d : Vector2) (hd : IsHeading d) (keys : Keys) (s : Session)
    (h : HeadingKept d s) : HeadingKept d (s.handleInput keys) := by
  rcases h with hdir | ⟨hlock, hne, hh⟩
  · obtain ⟨h1, h2, _, _, h5, h6, _⟩ := directionInput_facts d hd s.allowMove keys
    have hacc : (directionInput keys ⟨d, s.allowMove, 0⟩).accepted = 0 ∨
        (directionInput keys ⟨d, s.allowMove, 0⟩).accepted = 1 := by
      have := (directionInput_facts d hd s.allowMove keys).2.2.2.1
      omega
    rcases hacc with h0 | h1'
    · left
      simp only [Session.handleInput, hdir]
      exact (h6 h0).1
    · right
      simp only [Session.handleInput, hdir]
      exact ⟨h5 h1', h1, h2⟩
  · right
    simp only [Session.handleInput, hlock, directionInput_locked]
    exact ⟨trivial, hne, hh⟩

theorem handleInput_foldl_keeps (d : Vector2) (hd : IsHeading d) (frames : List Keys)
    (s : Session) (h : HeadingKept d s) :
    HeadingKept d (frames.foldl (fun acc keys => acc.handleInput keys) s) := by
  induction frames generalizing s with
  | nil => exact h
  | cons keys rest ih => exact ih _ (handleInput_keeps d hd keys s h)

theorem Update_running_direction (isHardMode : Bool) (tUpdate tSpawn : Int) (g g' : Game)
    (hrun : g.running = true) (h : g.Update isHardMode tUpdate tSpawn = .ok g')
    (hrun' : g'.running = true) : g'.snake.direction = g.snake.direction := by
  obtain ⟨snake, g3, g4, g5, h1, h3, h4, h5, h6⟩ :=
    Update_ok_inv isHardMode tUpdate tSpawn g g' hrun h
  obtain ⟨hd, tl, _, hdir, _, hsb⟩ := Snake_Update_ok_inv g.snake snake h1
  have hb3 := CheckCollisionWithFood_body tSpawn _ g3 h3
  have hb4 := CheckCollisionWithExplosiveFood_body g3 g4 h4
  have hbody4 : g4.snake.body = _ :: _ := hb4.1.trans (hb3.1.trans hsb)
  have h56 : AfterGameOvers g4 g' :=
    AfterGameOvers_trans g4 g5 g' (CheckCollisionWithEdges_after isHardMode g4 g5 _ _ hbody4 h5)
      (CheckCollisionWithTail_after g5 g' h6)
  rcases AfterGameOvers_cases g4 g' h56 with rfl | ⟨g1, hst⟩
  · rw [hb4.2.1, hb3.2.1]
    exact hdir
  · rw [hst.running] at hrun'
    cases hrun'

theorem Update_stopped_direction (isHardMode : Bool) (tUpdate tSpawn : Int) (g g' : Game)
    (hrun : g.running = true) (h : g.Update isHardMode tUpdate tSpawn = .ok g')
    (hrun' : g'.running = false) : g'.snake.direction = ⟨1, 0⟩ ∧ g'.gameovermenu = true := by
  obtain ⟨snake, g3, g4, g5, h1, h3, h4, h5, h6⟩ :=
    Update_ok_inv isHardMode tUpdate tSpawn g g' hrun h
  obtain ⟨hd, tl, _, _, _, hsb⟩ := Snake_Update_ok_inv g.snake snake h1
  have hb3 := CheckCollisionWithFood_body tSpawn _ g3 h3
  have hb4 := CheckCollisionWithExplosiveFood_body g3 g4 h4
  have hbody4 : g4.snake.body = _ :: _ := hb4.1.trans (hb3.1.trans hsb)
  have h56 : AfterGameOvers g4 g' :=
    AfterGameOvers_trans g4 g5 g' (CheckCollisionWithEdges_after isHardMode g4 g5 _ _ hbody4 h5)
      (CheckCollisionWithTail_after g5 g' h6)
  rcases AfterGameOvers_cases g4 g' h56 with rfl | ⟨g1, hst⟩
  · have hr : g'.running = true := hb4.2.2.2.2.2.1.trans (hb3.2.2.2.2.2.1.trans hrun)
    rw [hr] at hrun'
    cases hrun'
  · exact ⟨hst.direction, hst.menu⟩

/-- C16, as stated, fails across a game over: a tick with heading (-1,0) at
the left edge ends the run, `GameOver` resets the heading to (1,0), the exact
reverse, and after RESTART the next tick moves the snake with that heading,
from (6,9) to (7,9). -/
theorem heading_reversed_across_game_over :
    leftEdgeSession.game.snake.direction = ⟨-1, 0⟩ ∧ IsHeading ⟨-1, 0⟩ ∧
    leftEdgeSession.game.running = true ∧
    ∃ s1 s2 s3,
      leftEdgeSession.gameScreenFrame (some (0, 0)) noKeys = .ok s1 ∧
      s1.game.running = false ∧ s1.game.snake.direction = reverse ⟨-1, 0⟩ ∧
      s1.restart = .ok s2 ∧
      s2.game.running = true ∧ s2.game.snake.direction = reverse ⟨-1, 0⟩ ∧
      s2.gameScreenFrame (some (1, 1)) noKeys = .ok s3 ∧
      s3.game.snake.body = [⟨7, 9⟩, ⟨6, 9⟩, ⟨5, 9⟩] :=
  ⟨rfl, Or.inr (Or.inl rfl), rfl, _, _, _, rfl, rfl, rfl, rfl, rfl, rfl, rfl, rfl⟩

/-- C16 amended: for every current heading `d` among (1,0), (-1,0), (0,1),
(0,-1), every value of `allowMove` and every set of arrow keys pressed in a
frame, the direction input of the GAME screen yields a heading that is not the
reverse of `d` (and is again one of the four), changes the heading only if
`allowMove` was true, accepts at most one key, clears `allowMove` when it
accepts one and changes nothing when it accepts none. A frame without tick is
this input alone. When a frame with a tick (which sets `allowMove` and runs
`Game::Update` with the heading `d`) leaves the game running, then after that
frame and any number of frames without tick the heading, which the next tick
uses, is not the reverse of `d`. When the tick ends the run instead, the
heading after the frame is the direction input of that frame applied to the
reset heading (1,0), whatever `d` was, and the game-over menu is set; for
some such tick that heading is the exact reverse of `d`. -/
theorem direction_never_reversed :
    (∀ (d : Vector2), IsHeading d → ∀ (allowMove : Bool) (keys : Keys),
      (directionInput keys ⟨d, allowMove, 0⟩).direction ≠ reverse d ∧
      IsHeading (directionInput keys ⟨d, allowMove, 0⟩).direction ∧
      ((directionInput keys ⟨d, allowMove, 0⟩).direction ≠ d → allowMove = true) ∧
      (directionInput keys ⟨d, allowMove, 0⟩).accepted ≤ 1 ∧
      ((directionInput keys ⟨d, allowMove, 0⟩).accepted = 1 →
        (directionInput keys ⟨d, allowMove, 0⟩).allowMove = false) ∧
      ((directionInput keys ⟨d, allowMove, 0⟩).accepted = 0 →
        (directionInput keys ⟨d, allowMove, 0⟩).direction = d ∧
        (directionInput keys ⟨d, allowMove, 0⟩).allowMove = allowMove) ∧
      (allowMove = false → (directionInput keys ⟨d, allowMove, 0⟩).accepted = 0)) ∧
    (∀ (s : Session) (keys : Keys), s.gameScreenFrame none keys = .ok (s.handleInput keys)) ∧
    (∀ (s s1 : Session) (tUpdate tSpawn : Int) (keys : Keys) (frames : List Keys),
      IsHeading s.game.snake.direction → s.game.running = true →
      s.gameScreenFrame (some (tUpdate, tSpawn)) keys = .ok s1 → s1.game.running = true →
      (frames.foldl (fun acc k => acc.handleInput k) s1).game.snake.direction
          ≠ reverse s.game.snake.direction ∧
      IsHeading (frames.foldl (fun acc k => acc.handleInput k) s1).game.snake.direction) ∧
    (∀ (s s1 : Session) (tUpdate tSpawn : Int) (keys : Keys),
      s.game.running = true →
      s.gameScreenFrame (some (tUpdate, tSpawn)) keys = .ok s1 → s1.game.running = false →
      s1.game.snake.direction = (directionInput keys ⟨⟨1, 0⟩, true, 0⟩).direction ∧
      s1.game.gameovermenu = true) ∧
    (∃ (s s1 : Session) (keys : Keys),
      IsHeading s.game.snake.direction ∧ s.game.running = true ∧
      s.gameScreenFrame (some (0, 0)) keys = .ok s1 ∧ s1.game.running = false ∧
      s1.game.snake.direction = reverse s.game.snake.direction) := by
  refine ⟨fun d hd allowMove keys => directionInput_facts d hd allowMove keys,
    fun s keys => rfl, ?_, ?_,
    ⟨leftEdgeSession, _, noKeys, Or.inr (Or.inl rfl), rfl, rfl, rfl, rfl⟩⟩
  swap
  · intro s s1 tUpdate tSpawn keys hrun hframe hrun1
    simp only [Session.gameScreenFrame] at hframe
    cases hu : Game.Update s.isHardMode tUpdate tSpawn s.game with
    | error f => rw [hu] at hframe; cases hframe
    | ok g =>
      rw [hu] at hframe
      simp only [Except.ok.injEq] at hframe
      subst hframe
      have hg : g.running = false := hrun1
      obtain ⟨hdir, hmenu⟩ :=
        Update_stopped_direction s.isHardMode tUpdate tSpawn s.game g hrun hu hg
      simp only [Session.handleInput, hdir]
      exact ⟨trivial, hmenu⟩
  intro s s1 tUpdate tSpawn keys frames hd hrun hframe hrun1
  simp only [Session.gameScreenFrame] at hframe
  cases hu : Game.Update s.isHardMode tUpdate tSpawn s.game with
  | error f => rw [hu] at hframe; cases hframe
  | ok g =>
    rw [hu] at hframe
    simp only [Except.ok.injEq] at hframe
    subst hframe
    have hg : g.running = true := hrun1
    have hdir : g.snake.direction = s.game.snake.direction :=
      Update_running_direction s.isHardMode tUpdate tSpawn s.game g hrun hu hg
    have h0 : HeadingKept s.game.snake.direction
        ({ s with allowMove := true, game := g } : Session) := Or.inl hdir
    have h2 := handleInput_foldl_keeps s.game.snake.direction hd frames _
      (handleInput_keeps s.game.snake.direction hd keys _ h0)
    rcases h2 with heq | ⟨_, hne, hh⟩
    · rw [heq]
      exact ⟨IsHeading_ne_reverse _ hd, hd⟩
    · exact ⟨hne, hh⟩

/-- Witness of C16: heading (1,0); in the frame of the tick UP and LEFT are
pressed, UP is accepted; DOWN and LEFT in later frames are ignored. -/
theorem direction_never_reversed_witness :
    (List.foldl (fun (acc : Session) (k : Keys) => acc.handleInput k)
        ({ game := { easyRun ⟨12, 12⟩ [] with
                     snake := { body := [⟨7, 9⟩, ⟨6, 9⟩, ⟨5, 9⟩], direction := ⟨0, -1⟩,
                                addSegment := false } },
           allowMove := false, isHardMode := false } : Session)
        [⟨false, true, false, false⟩, ⟨false, false, true, false⟩]).game.snake.direction
      ≠ reverse ⟨1, 0⟩ :=
  (direction_never_reversed.2.2.1
    { game := easyRun ⟨12, 12⟩ [], allowMove := false, isHardMode := false }
    { game := { easyRun ⟨12, 12⟩ [] with
                snake := { body := [⟨7, 9⟩, ⟨6, 9⟩, ⟨5, 9⟩], direction := ⟨0, -1⟩,
                           addSegment := false } },
      allowMove := false, isHardMode := false }
    0 0 ⟨true, false, true, false⟩
    [⟨false, true, false, false⟩, ⟨false, false, true, false⟩]
    (Or.inl rfl) rfl rfl rfl).1

/-! ## The invariant of a run -/

theorem Free_of_not_mem (map : Option MapBase) (body body' : List Vector2) (p : Vector2)
    (h : Free map body p) (hno : p ∉ body') : Free map body' p :=
  ⟨hno, h.2⟩

theorem Reachable_ticks (isHardMode : Bool) (times : List (Int × Int)) (g g' : Game)
    (hg : Reachable isHardMode g) (h : Game.ticks isHardMode times g = .ok g') :
    Reachable isHardMode g' := by
  induction times generalizing g with
  | nil =>
    simp only [Game.ticks, Except.ok.injEq] at h
    exact h ▸ hg
  | cons t later ih =>
    obtain ⟨tUpdate, tSpawn⟩ := t
    simp only [Game.ticks] at h
    cases hu : Game.Update isHardMode tUpdate tSpawn g with
    | error f => rw [hu] at h; cases h
    | ok g1 =>
      rw [hu] at h
      exact ih g1 (Reachable.tick g g1 tUpdate tSpawn hg hu) h

theorem RunInv_start (isHardMode : Bool) (g : Game) (h : StartOfRun isHardMode g) :
    RunInv isHardMode g := by
  obtain ⟨rng, rest, hfood⟩ := h.food
  rw [GenerateRandomPos_eq_static] at hfood
  obtain ⟨_, _, _, hpf, hpg, _⟩ := static_ok_spec _ _ _ _ _ hfood
  refine ⟨h.hardMap, h.foodMap, h.explosiveMap, ?_, hpg, ?_⟩
  · rw [h.body]
    exact (rejected_false_iff _ _ _).1 hpf
  · intro ha
    rw [h.inactive] at ha
    cases ha

theorem RunInv_after (isHardMode : Bool) (g g' : Game) (hinv : RunInv isHardMode g)
    (h : AfterGameOvers g g') : RunInv isHardMode g' := by
  obtain ⟨_, _, f3, f4, f5, _⟩ := AfterGameOvers_fields g g' h
  rcases AfterGameOvers_cases g g' h with rfl | ⟨g1, hst⟩
  · exact hinv
  · refine ⟨f3.trans hinv.hardMap, (f4.trans hinv.foodMap).trans f3.symm,
      (f5.trans hinv.explosiveMap).trans f3.symm, ?_, hst.grid, ?_⟩
    · rw [hst.body]
      exact hst.free
    · intro ha
      rw [hst.inactive] at ha
      cases ha

theorem RunInv_Update (isHardMode : Bool) (tUpdate tSpawn : Int) (g g' : Game)
    (hinv : RunInv isHardMode g) (h : g.Update isHardMode tUpdate tSpawn = .ok g') :
    RunInv isHardMode g' := by
  cases hrun : g.running with
  | false =>
    rw [Update_not_running isHardMode tUpdate tSpawn g hrun] at h
    cases h
    exact hinv
  | true =>
    obtain ⟨snake, g3, g4, g5, h1, h3, h4, h5, h6⟩ :=
      Update_ok_inv isHardMode tUpdate tSpawn g g' hrun h
    obtain ⟨head, tail, hb0, _, _, hsb⟩ := Snake_Update_ok_inv g.snake snake h1
    -- cells of the old body make up the part of the moved body behind its head
    have hrest : ∀ p, p ∉ g.snake.body →
        p ∉ (if g.snake.addSegment = true then g.snake.body else g.snake.body.dropLast) := by
      intro p hp
      split
      · exact hp
      · exact fun hm => hp (List.mem_of_mem_dropLast hm)
    have hb3 := CheckCollisionWithFood_body tSpawn _ g3 h3
    have hb4 := CheckCollisionWithExplosiveFood_body g3 g4 h4
    have hbody3 : g3.snake.body = _ :: _ := hb3.1.trans hsb
    have hbody4 : g4.snake.body = _ :: _ := hb4.1.trans hbody3
    have h56 : AfterGameOvers g4 g' :=
      AfterGameOvers_trans g4 g5 g' (CheckCollisionWithEdges_after isHardMode g4 g5 _ _ hbody4 h5)
        (CheckCollisionWithTail_after g5 g' h6)
    refine RunInv_after isHardMode g4 g' ?_ h56
    have hupd := update_fields g.explosiveFood tUpdate
    -- after the food step: the food is free; the explosive food is free but for the head
    have hstep3 : Free g3.food.map g3.snake.body g3.food.position ∧ InGrid g3.food.position ∧
        (g3.explosiveFood.isActive = true →
          g3.explosiveFood.position ∉
            (if g.snake.addSegment = true then g.snake.body else g.snake.body.dropLast) ∧
          (∀ m, g3.explosiveFood.map = some m → ∀ w ∈ m.walls,
            CheckCollisionRecs w.rect (probe m.blockSize g3.explosiveFood.position) = false) ∧
          InGrid g3.explosiveFood.position) := by
      have hold : (g.explosiveFood.update tUpdate).isActive = true →
          (g.explosiveFood.update tUpdate).position ∉
            (if g.snake.addSegment = true then g.snake.body else g.snake.body.dropLast) ∧
          (∀ m, (g.explosiveFood.update tUpdate).map = some m → ∀ w ∈ m.walls,
            CheckCollisionRecs w.rect
              (probe m.blockSize (g.explosiveFood.update tUpdate).position) = false) ∧
          InGrid (g.explosiveFood.update tUpdate).position := by
        intro ha
        obtain ⟨hfree, hgrid⟩ := hinv.explosive (hupd.2.2.2 ha)
        rw [hupd.1, hupd.2.1]
        exact ⟨hrest _ hfree.1, hfree.2, hgrid⟩
      rcases CheckCollisionWithFood_ok_cases tSpawn _ g3 _ _ hsb h3 with
        ⟨hne, rfl⟩ | ⟨_, p, rest, hp, ⟨_, rfl⟩ | ⟨_, q, rest', hq, rfl⟩⟩
      · refine ⟨?_, hinv.foodGrid, hold⟩
        refine Free_of_not_mem _ _ _ _ hinv.foodFree ?_
        simp only at hne ⊢
        rw [hsb]
        intro hm
        rcases List.mem_cons.1 hm with heq | hm
        · exact hne heq.symm
        · exact hrest _ hinv.foodFree.1 hm
      · obtain ⟨_, _, _, hpf, hpg, _⟩ := static_ok_spec _ _ _ _ _ hp
        exact ⟨(rejected_false_iff _ _ _).1 hpf, hpg, hold⟩
      · obtain ⟨_, _, _, hpf, hpg, _⟩ := static_ok_spec _ _ _ _ _ hp
        obtain ⟨_, _, _, hqf, hqg, _⟩ := static_ok_spec _ _ _ _ _ hq
        refine ⟨(rejected_false_iff _ _ _).1 hpf, hpg, fun _ => ?_⟩
        have hfree := (rejected_false_iff _ _ _).1 hqf
        simp only at hfree ⊢
        rw [hsb] at hfree
        exact ⟨fun hm => hfree.1 (List.mem_cons_of_mem _ hm), hfree.2, hqg⟩
    obtain ⟨hfood3, hgrid3, hexp3⟩ := hstep3
    have hmaps3 : g3.hardMap = modeMap isHardMode ∧ g3.food.map = g3.hardMap ∧
        g3.explosiveFood.map = g3.hardMap := by
      refine ⟨hb3.2.2.1.trans hinv.hardMap, (hb3.2.2.2.1.trans hinv.foodMap).trans hb3.2.2.1.symm,
        ?_⟩
      rw [hb3.2.2.2.2.1, hb3.2.2.1]
      exact hupd.1.trans hinv.explosiveMap
    rcases CheckCollisionWithExplosiveFood_ok_cases g3 g4 h4 with ⟨rfl, hmiss⟩ | ⟨_, _, rfl⟩
    · refine ⟨hmaps3.1, hmaps3.2.1, hmaps3.2.2, hfood3, hgrid3, ?_⟩
      intro ha
      obtain ⟨hno, hw, hg⟩ := hexp3 ha
      refine ⟨⟨?_, hw⟩, hg⟩
      rw [hbody3]
      intro hm
      rcases List.mem_cons.1 hm with heq | hm
      · exact hmiss ha _ _ hbody3 heq.symm
      · exact hno hm
    · exact ⟨hmaps3.1, hmaps3.2.1, hmaps3.2.2, hfood3, hgrid3, fun ha => by cases ha⟩

theorem RunInv_reachable (isHardMode : Bool) (g : Game) (h : Reachable isHardMode g) :
    RunInv isHardMode g := by
  induction h with
  | start g hs => exact RunInv_start isHardMode g hs
  | tick g g' tUpdate tSpawn _ hu ih => exact RunInv_Update isHardMode tUpdate tSpawn g g' ih hu
  | turn g keys allowMove _ ih =>
    exact ⟨ih.hardMap, ih.foodMap, ih.explosiveMap, ih.foodFree, ih.foodGrid, ih.explosive⟩
  | environment g writable _ ih =>
    exact ⟨ih.hardMap, ih.foodMap, ih.explosiveMap, ih.foodFree, ih.foodGrid, ih.explosive⟩

theorem modeMap_blockSize (isHardMode : Bool) (m : MapBase)
    (h : modeMap isHardMode = some m) : isHardMode = true ∧ m = HardModeMap cellSize := by
  cases isHardMode with
  | false => simp [modeMap] at h
  | true =>
    simp only [modeMap, if_true, Option.some.injEq] at h
    exact ⟨rfl, h.symm⟩

/-- In a run the food's cell, taken as a head rectangle, overlaps no wall of `hardMap`. -/
theorem RunInv_food_off_walls (isHardMode : Bool) (g : Game) (hinv : RunInv isHardMode g)
    (m : MapBase) (hm : g.hardMap = some m) :
    ∀ w ∈ m.walls, CheckCollisionRecs w.rect (headRect g.food.position) = false := by
  intro w hw
  have hmode : modeMap isHardMode = some m := by rw [← hinv.hardMap]; exact hm
  obtain ⟨_, rfl⟩ := modeMap_blockSize isHardMode m hmode
  have := hinv.foodFree.2 (HardModeMap cellSize) (by rw [hinv.foodMap]; exact hm) w hw
  exact this

/-! ## C18: the food is never on the snake or on a wall -/

/-- C18: in every state reachable from a start of run by `Game::Update` ticks
and direction input, the food position is a cell inside the grid that is no
element of the snake body; in hard mode `hardMap` is the hard-mode map and the
food's `cellSize` by `cellSize` rectangle overlaps none of its walls, in easy
mode there is no map. -/
theorem food_stays_free (isHardMode : Bool) (g : Game) (h : Reachable isHardMode g) :
    InGrid g.food.position ∧ g.food.position ∉ g.snake.body ∧
    (isHardMode = true →
      g.hardMap = some (HardModeMap cellSize) ∧
      ∀ w ∈ (HardModeMap cellSize).walls,
        CheckCollisionRecs w.rect (headRect g.food.position) = false) ∧
    (isHardMode = false → g.hardMap = none) := by
  have hinv := RunInv_reachable isHardMode g h
  refine ⟨hinv.foodGrid, hinv.foodFree.1, ?_, ?_⟩
  · intro hhard
    have hm : g.hardMap = some (HardModeMap cellSize) := by
      rw [hinv.hardMap, hhard]; rfl
    exact ⟨hm, RunInv_food_off_walls isHardMode g hinv _ hm⟩
  · intro heasy
    rw [hinv.hardMap, heasy]
    rfl

/-- Witness of C18: hard mode, one tick that eats the food at (7,9); the
sample (3,4) is on a wall, the food goes to (8,9). -/
theorem food_stays_free_witness :
    InGrid ⟨8, 9⟩ ∧ (⟨8, 9⟩ : Vector2) ∉ ([⟨7, 9⟩, ⟨6, 9⟩, ⟨5, 9⟩] : List Vector2) ∧
    ∀ w ∈ (HardModeMap cellSize).walls, CheckCollisionRecs w.rect (headRect ⟨8, 9⟩) = false :=
  have h := food_stays_free true
    { hardRun ⟨8, 9⟩ [] with
      snake := { body := [⟨7, 9⟩, ⟨6, 9⟩, ⟨5, 9⟩], direction := ⟨1, 0⟩, addSegment := true },
      score := 1, foodEatenCount := 1 }
    (Reachable.tick (hardRun ⟨7, 9⟩ [3, 4, 8, 9]) _ 0 0
      (Reachable.start _ ⟨rfl, rfl, rfl, rfl, rfl, ⟨[7, 9], [], rfl⟩, rfl⟩) rfl)
  ⟨h.1, h.2.1, (h.2.2.1 rfl).2⟩

/-! ## C19: eating the food is never fatal -/

/-- A tick whose moved head is inside the grid, off every wall and off the
rest of the body is the food step followed by the explosive-food step: the
two fatal checks change nothing. -/
theorem Update_safe_head (isHardMode : Bool) (tUpdate tSpawn : Int) (g : Game) (snake : Snake)
    (head' : Vector2) (tail' : List Vector2) (hrun : g.running = true)
    (hs : g.snake.Update = .ok snake) (hb : snake.body = head' :: tail')
    (hin : InGrid head')
    (hwall : ∀ m, g.hardMap = some m → m.CheckCollisionWithRect (headRect head') = false)
    (hself : head' ∉ tail') :
    g.Update isHardMode tUpdate tSpawn =
      match Game.CheckCollisionWithFood tSpawn
          { g with snake := snake, explosiveFood := g.explosiveFood.update tUpdate } with
      | .error f => .error f
      | .ok g3 => g3.CheckCollisionWithExplosiveFood := by
  unfold Game.Update
  rw [if_pos hrun, hs]
  simp only
  cases h3 : Game.CheckCollisionWithFood tSpawn
      { g with snake := snake, explosiveFood := g.explosiveFood.update tUpdate } with
  | error f => rfl
  | ok g3 =>
    simp only
    have hb3 := CheckCollisionWithFood_body tSpawn _ g3 h3
    cases h4 : g3.CheckCollisionWithExplosiveFood with
    | error f => rfl
    | ok g4 =>
      simp only
      have hb4 := CheckCollisionWithExplosiveFood_body g3 g4 h4
      have hbody4 : g4.snake.body = head' :: tail' := hb4.1.trans (hb3.1.trans hb)
      have hmap4 : g4.hardMap = g.hardMap := hb4.2.2.1.trans hb3.2.2.1
      rw [CheckCollisionWithEdges_not_fatal isHardMode g4 head' tail' hbody4 hin
        (fun m hm => hwall m (hmap4 ▸ hm))]
      simp only
      exact CheckCollisionWithTail_not_fatal g4 head' tail' hbody4 hself

theorem CheckCollisionWithFood_returns (now : Int) (g : Game) (head : Vector2)
    (tail : List Vector2) (hbody : g.snake.body = head :: tail)
    (p : Vector2) (r1 : List Nat) (q : Vector2) (r2 : List Nat)
    (hp : Food.GenerateRandomPosStatic g.snake.body g.food.map g.rng = .ok (p, r1))
    (hq : Food.GenerateRandomPosStatic g.snake.body g.explosiveFood.map r1 = .ok (q, r2)) :
    ∃ g3, g.CheckCollisionWithFood now = .ok g3 := by
  rw [hbody] at hp hq
  simp only [Game.CheckCollisionWithFood, hbody, GenerateRandomPos_eq_static, hp]
  split
  · split
    · simp only [ExplosiveFood.spawn, hq]
      exact ⟨_, rfl⟩
    · exact ⟨_, rfl⟩
  · exact ⟨_, rfl⟩

theorem CheckCollisionWithExplosiveFood_returns (g : Game) (head : Vector2)
    (tail : List Vector2) (hbody : g.snake.body = head :: tail) :
    ∃ g4, g.CheckCollisionWithExplosiveFood = .ok g4 := by
  cases h : g.CheckCollisionWithExplosiveFood with
  | error f => exact absurd h (CheckCollisionWithExplosiveFood_error g head tail hbody f)
  | ok g4 => exact ⟨g4, rfl⟩

/-- C19: in every running state reachable from a start of run whose next
head cell, head + direction, is the food's cell: that cell is inside the grid,
overlaps no wall of the map and is off the snake body, so the food
pickup is not followed by a game over: every state the tick returns is still
running with `gameovermenu` and `highestscore` unchanged, `foodEatenCount`
increased by 1, the score increased by 1 (plus the explosive food's points if
it is picked up too) and the moved body, not the reset one. The tick returns
as soon as the samples let the food placement and the explosive-food placement
end, and fails to return only when the samples run out. -/
theorem eating_is_not_fatal (isHardMode : Bool) (tUpdate tSpawn : Int) (g : Game)
    (head : Vector2) (tail : List Vector2) (hreach : Reachable isHardMode g)
    (hrun : g.running = true) (hbody : g.snake.body = head :: tail)
    (hland : Vector2Add head g.snake.direction = g.food.position) :
    (InGrid g.food.position ∧ g.food.position ∉ g.snake.body ∧
      ∀ m, g.hardMap = some m →
        ∀ w ∈ m.walls, CheckCollisionRecs w.rect (headRect g.food.position) = false) ∧
    (∀ g', g.Update isHardMode tUpdate tSpawn = .ok g' →
      g'.running = true ∧ g'.gameovermenu = g.gameovermenu ∧
      g'.highestscore = g.highestscore ∧
      g'.foodEatenCount = g.foodEatenCount + 1 ∧
      (g'.score = g.score + 1 ∨
        g'.score = g.score + 1 + (g.explosiveFood.update tUpdate).points) ∧
      g'.snake.body = g.food.position ::
        (if g.snake.addSegment = true then g.snake.body else g.snake.body.dropLast)) ∧
    (∀ p r1 q r2,
      Food.GenerateRandomPosStatic
          (g.food.position ::
            (if g.snake.addSegment = true then g.snake.body else g.snake.body.dropLast))
          g.food.map g.rng = .ok (p, r1) →
      Food.GenerateRandomPosStatic
          (g.food.position ::
            (if g.snake.addSegment = true then g.snake.body else g.snake.body.dropLast))
          g.explosiveFood.map r1 = .ok (q, r2) →
      ∃ g', g.Update isHardMode tUpdate tSpawn = .ok g') ∧
    (∀ f, g.Update isHardMode tUpdate tSpawn = .error f → f = Fault.noSample) := by
  have hinv := RunInv_reachable isHardMode g hreach
  have hwalls := RunInv_food_off_walls isHardMode g hinv
  -- the snake moves onto the food's cell
  obtain ⟨snake, hs⟩ : ∃ snake, g.snake.Update = .ok snake := by
    cases h : g.snake.Update with
    | error f => simp [Snake.Update, hbody] at h; split at h <;> cases h
    | ok snake => exact ⟨snake, rfl⟩
  obtain ⟨hd, tl, hb0, _, _, hsb⟩ := Snake_Update_ok_inv g.snake snake hs
  rw [hbody] at hb0
  cases hb0
  rw [hland] at hsb
  have hself : g.food.position ∉
      (if g.snake.addSegment = true then g.snake.body else g.snake.body.dropLast) := by
    split
    · exact hinv.foodFree.1
    · exact fun hm => hinv.foodFree.1 (List.mem_of_mem_dropLast hm)
  have hwall' : ∀ m, g.hardMap = some m →
      m.CheckCollisionWithRect (headRect g.food.position) = false := by
    intro m hm
    cases hv : m.CheckCollisionWithRect (headRect g.food.position) with
    | false => rfl
    | true =>
      obtain ⟨w, hw, hcol⟩ := (CheckCollisionWithRect_iff m _).1 hv
      rw [hwalls m hm w hw] at hcol
      cases hcol
  have hupdate := Update_safe_head isHardMode tUpdate tSpawn g snake _ _ hrun hs hsb
    hinv.foodGrid hwall' hself
  refine ⟨⟨hinv.foodGrid, hinv.foodFree.1, hwalls⟩, ?_, ?_,
    fun f h => Update_error isHardMode tUpdate tSpawn g head tail hbody f h⟩
  · intro g' h
    rw [hupdate] at h
    cases h3 : Game.CheckCollisionWithFood tSpawn
        { g with snake := snake, explosiveFood := g.explosiveFood.update tUpdate } with
    | error f => rw [h3] at h; cases h
    | ok g3 =>
      rw [h3] at h
      simp only at h
      have hb4 := CheckCollisionWithExplosiveFood_body g3 g' h
      have hb3 := CheckCollisionWithFood_body tSpawn _ g3 h3
      have hcount3 : g3.foodEatenCount = g.foodEatenCount + 1 ∧ g3.score = g.score + 1 ∧
          (g3.explosiveFood.isActive = true →
            g3.explosiveFood.position ∈ g3.snake.body →
            g3.explosiveFood.points = (g.explosiveFood.update tUpdate).points) := by
        rcases CheckCollisionWithFood_ok_cases tSpawn _ g3 _ _ hsb h3 with
          ⟨hne, _⟩ | ⟨_, p, rest, _, ⟨_, rfl⟩ | ⟨_, q, rest', hq, rfl⟩⟩
        · exact absurd rfl hne
        · exact ⟨rfl, rfl, fun _ _ => rfl⟩
        · refine ⟨rfl, rfl, fun _ hm => ?_⟩
          obtain ⟨_, _, _, hqf, _, _⟩ := static_ok_spec _ _ _ _ _ hq
          exact absurd hm ((rejected_false_iff _ _ _).1 hqf).1
      refine ⟨hb4.2.2.2.2.2.1.trans (hb3.2.2.2.2.2.1.trans hrun),
        hb4.2.2.2.2.2.2.1.trans hb3.2.2.2.2.2.2.1,
        hb4.2.2.2.2.2.2.2.1.trans hb3.2.2.2.2.2.2.2, hb4.2.2.2.2.2.2.2.2.trans hcount3.1, ?_,
        hb4.1.trans (hb3.1.trans hsb)⟩
      rcases CheckCollisionWithExplosiveFood_ok_cases g3 g' h with ⟨rfl, _⟩ | ⟨ha, ⟨tl', hb'⟩, rfl⟩
      · exact Or.inl hcount3.2.1
      · right
        simp only
        rw [hcount3.2.1, hcount3.2.2 ha (by rw [hb']; exact List.mem_cons_self _ _)]
  · intro p r1 q r2 hp hq
    rw [hupdate]
    have hq' : Food.GenerateRandomPosStatic
        (g.food.position ::
          (if g.snake.addSegment = true then g.snake.body else g.snake.body.dropLast))
        (g.explosiveFood.update tUpdate).map r1 = .ok (q, r2) := by
      rw [(update_fields g.explosiveFood tUpdate).1]; exact hq
    obtain ⟨g3, h3⟩ := CheckCollisionWithFood_returns tSpawn
      { g with snake := snake, explosiveFood := g.explosiveFood.update tUpdate } _ _ hsb
      p r1 q r2 (by simp only [hsb]; exact hp) (by simp only [hsb]; exact hq')
    rw [h3]
    simp only
    have hb3 := CheckCollisionWithFood_body tSpawn _ g3 h3
    exact CheckCollisionWithExplosiveFood_returns g3 _ _ (hb3.1.trans hsb)

/-- Witness of C19: the first tick of an easy run eats the food at (7,9) and
the game goes on. -/
theorem eating_is_not_fatal_witness :
    ∃ g', Game.Update false 0 0 (easyRun ⟨7, 9⟩ [3, 4, 5, 5]) = .ok g' ∧
      g'.running = true ∧ g'.foodEatenCount = 1 :=
  have h := eating_is_not_fatal false 0 0 (easyRun ⟨7, 9⟩ [3, 4, 5, 5]) ⟨6, 9⟩ [⟨5, 9⟩, ⟨4, 9⟩]
    (Reachable.start _ ⟨rfl, rfl, rfl, rfl, rfl, ⟨[7, 9], [], rfl⟩, rfl⟩) rfl rfl rfl
  match h.2.2.1 ⟨3, 4⟩ [5, 5] ⟨5, 5⟩ [] rfl rfl with
  | ⟨g', hg'⟩ => ⟨g', hg', (h.2.1 g' hg').1, (h.2.1 g' hg').2.2.2.1⟩

/-! ## C20: the explosive food and the regular food -/

theorem coincideState_reachable : Reachable false coincideState :=
  Reachable_ticks false [(996, 996), (997, 997), (998, 998), (999, 999), (1000, 1000)]
    coincideStart coincideState
    (Reachable.start _ ⟨rfl, rfl, rfl, rfl, rfl, ⟨[7, 9], [], rfl⟩, rfl⟩) rfl

theorem coincideState_tick : Game.Update false 1001 1001 coincideState = .ok coincideAfter :=
  rfl

/-- C20, as stated, fails: five ticks from a start of run reach a state whose
active explosive food lies on the regular food's cell (12,9), and the sixth
tick performs both pickups: `foodEatenCount` goes from 5 to 6 and the score
from 5 to 5 + 1 + 90. -/
theorem explosive_food_on_food :
    Reachable false coincideState ∧
    coincideState.explosiveFood.isActive = true ∧
    coincideState.explosiveFood.position = coincideState.food.position ∧
    Game.Update false 1001 1001 coincideState = .ok coincideAfter ∧
    coincideAfter.foodEatenCount = coincideState.foodEatenCount + 1 ∧
    coincideAfter.score = coincideState.score + 1 + 90 ∧
    coincideAfter.explosiveFood.isActive = false :=
  ⟨coincideState_reachable, rfl, rfl, coincideState_tick, rfl, rfl, rfl⟩

theorem update_stays_active (e : ExplosiveFood) (now : Int) (ha : e.isActive = true)
    (hlt : now - e.spawnTime < 7) : (e.update now).isActive = true := by
  have hnot : ¬ now - e.spawnTime ≥ ExplosiveFood.duration := by
    simp only [ExplosiveFood.duration]; omega
  simp [ExplosiveFood.update, ha, hnot]

/-- In a run, when the active explosive food lies on the food's cell and the
head moves onto it before the explosive food expires, the tick performs both
pickups. -/
theorem Update_both_pickups (isHardMode : Bool) (tUpdate tSpawn : Int) (g : Game)
    (head : Vector2) (tail : List Vector2) (hinv : RunInv isHardMode g)
    (hactive : g.explosiveFood.isActive = true) (hrun : g.running = true)
    (hbody : g.snake.body = head :: tail)
    (hsame : g.explosiveFood.position = g.food.position)
    (hland : Vector2Add head g.snake.direction = g.food.position)
    (hfresh : tUpdate - g.explosiveFood.spawnTime < 7) :
    (∀ g', g.Update isHardMode tUpdate tSpawn = .ok g' →
      g'.foodEatenCount = g.foodEatenCount + 1 ∧
      g'.score = g.score + 1 + (g.explosiveFood.update tUpdate).points ∧
      g'.explosiveFood.isActive = false ∧ g'.snake.addSegment = true ∧
      g'.running = true) ∧
    (∀ p r1,
      Food.GenerateRandomPosStatic
          (g.food.position ::
            (if g.snake.addSegment = true then g.snake.body else g.snake.body.dropLast))
          g.food.map g.rng = .ok (p, r1) →
      ∃ g', g.Update isHardMode tUpdate tSpawn = .ok g') := by
  have hwalls := RunInv_food_off_walls isHardMode g hinv
  obtain ⟨snake, hs⟩ : ∃ snake, g.snake.Update = .ok snake := by
    cases h : g.snake.Update with
    | error f => simp [Snake.Update, hbody] at h; split at h <;> cases h
    | ok snake => exact ⟨snake, rfl⟩
  obtain ⟨hd, tl, hb0, _, _, hsb⟩ := Snake_Update_ok_inv g.snake snake hs
  rw [hbody] at hb0
  cases hb0
  rw [hland] at hsb
  have hself : g.food.position ∉
      (if g.snake.addSegment = true then g.snake.body else g.snake.body.dropLast) := by
    split
    · exact hinv.foodFree.1
    · exact fun hm => hinv.foodFree.1 (List.mem_of_mem_dropLast hm)
  have hwall' : ∀ m, g.hardMap = some m →
      m.CheckCollisionWithRect (headRect g.food.position) = false := by
    intro m hm
    cases hv : m.CheckCollisionWithRect (headRect g.food.position) with
    | false => rfl
    | true =>
      obtain ⟨w, hw, hcol⟩ := (CheckCollisionWithRect_iff m _).1 hv
      rw [hwalls m hm w hw] at hcol
      cases hcol
  have hupdate := Update_safe_head isHardMode tUpdate tSpawn g snake _ _ hrun hs hsb
    hinv.foodGrid hwall' hself
  have hupd := update_fields g.explosiveFood tUpdate
  have hstill : (g.explosiveFood.update tUpdate).isActive = true :=
    update_stays_active g.explosiveFood tUpdate hactive hfresh
  have hnospawn : ∀ n, (g.explosiveFood.update tUpdate).shouldSpawn n = false := by
    intro n
    simp [ExplosiveFood.shouldSpawn, hstill]
  constructor
  · intro g' h
    rw [hupdate] at h
    cases h3 : Game.CheckCollisionWithFood tSpawn
        { g with snake := snake, explosiveFood := g.explosiveFood.update tUpdate } with
    | error f => rw [h3] at h; cases h
    | ok g3 =>
      rw [h3] at h
      simp only at h
      rcases CheckCollisionWithFood_ok_cases tSpawn _ g3 _ _ hsb h3 with
        ⟨hne, _⟩ | ⟨_, p, rest, _, ⟨_, rfl⟩ | ⟨hsp, _⟩⟩
      · exact absurd rfl hne
      · rcases CheckCollisionWithExplosiveFood_ok_cases _ g' h with ⟨_, hmiss⟩ | ⟨_, _, rfl⟩
        · exact absurd (hupd.2.1.trans hsame).symm (hmiss hstill _ _ hsb)
        · exact ⟨rfl, rfl, rfl, rfl, hrun⟩
      · rw [hnospawn] at hsp
        cases hsp
  · intro p r1 hp
    rw [hupdate]
    have h3 : ∃ g3, Game.CheckCollisionWithFood tSpawn
        { g with snake := snake, explosiveFood := g.explosiveFood.update tUpdate }
          = .ok g3 := by
      simp only [Game.CheckCollisionWithFood, hsb, GenerateRandomPos_eq_static, hp,
        (Vector2Equals_iff _ _).2 rfl, if_true, hnospawn, Bool.false_eq_true, if_false]
      exact ⟨_, rfl⟩
    obtain ⟨g3, h3⟩ := h3
    rw [h3]
    simp only
    have hb3 := CheckCollisionWithFood_body tSpawn _ g3 h3
    exact CheckCollisionWithExplosiveFood_returns g3 _ _ (hb3.1.trans hsb)

/-- C20 amended: in every state reachable from a start of run in which the
explosive food is active, its position is a cell inside the grid that is no
element of the snake body and whose rectangle overlaps no wall of the map.
It is not kept apart from the regular food: a reachable state with both on
the same cell exists. In every such state where the two coincide, a tick of a
running game that moves the head onto that cell less than 7 seconds after the
spawn performs both pickups: every state it returns has `foodEatenCount`
increased by 1, the score increased by 1 plus the explosive food's points, the
explosive food inactive and the game still running; and it returns as soon as
the food placement ends. -/
theorem explosive_food_stays_free (isHardMode : Bool) (g : Game)
    (h : Reachable isHardMode g) (hactive : g.explosiveFood.isActive = true) :
    (InGrid g.explosiveFood.position ∧ g.explosiveFood.position ∉ g.snake.body ∧
      ∀ m, g.hardMap = some m →
        ∀ w ∈ m.walls, CheckCollisionRecs w.rect (headRect g.explosiveFood.position) = false) ∧
    (∃ g0, Reachable false g0 ∧ g0.explosiveFood.isActive = true ∧
      g0.explosiveFood.position = g0.food.position) ∧
    (∀ (tUpdate tSpawn : Int) (head : Vector2) (tail : List Vector2),
      g.running = true → g.snake.body = head :: tail →
      g.explosiveFood.position = g.food.position →
      Vector2Add head g.snake.direction = g.food.position →
      tUpdate - g.explosiveFood.spawnTime < 7 →
      (∀ g', g.Update isHardMode tUpdate tSpawn = .ok g' →
        g'.foodEatenCount = g.foodEatenCount + 1 ∧
        g'.score = g.score + 1 + (g.explosiveFood.update tUpdate).points ∧
        g'.explosiveFood.isActive = false ∧ g'.snake.addSegment = true ∧
        g'.running = true) ∧
      (∀ p r1,
        Food.GenerateRandomPosStatic
            (g.food.position ::
              (if g.snake.addSegment = true then g.snake.body else g.snake.body.dropLast))
            g.food.map g.rng = .ok (p, r1) →
        ∃ g', g.Update isHardMode tUpdate tSpawn = .ok g')) := by
  have hinv := RunInv_reachable isHardMode g h
  obtain ⟨hfree, hgrid⟩ := hinv.explosive hactive
  refine ⟨⟨hgrid, hfree.1, ?_⟩, ⟨coincideState, coincideState_reachable, rfl, rfl⟩, ?_⟩
  · intro m hm w hw
    have hmode : modeMap isHardMode = some m := by rw [← hinv.hardMap]; exact hm
    obtain ⟨_, rfl⟩ := modeMap_blockSize isHardMode m hmode
    exact hfree.2 (HardModeMap cellSize) (by rw [hinv.explosiveMap]; exact hm) w hw
  · intro tUpdate tSpawn head tail hrun hbody hsame hland hfresh
    exact Update_both_pickups isHardMode tUpdate tSpawn g head tail hinv hactive hrun hbody
      hsame hland hfresh

/-- Witness of C20 amended: in the state after five ticks the explosive food
at (12,9) is off the snake body and on the food's cell; the tick at time 1001
performs both pickups. -/
theorem explosive_food_stays_free_witness :
    InGrid ⟨12, 9⟩ ∧
    (⟨12, 9⟩ : Vector2) ∉
      ([⟨11, 9⟩, ⟨10, 9⟩, ⟨9, 9⟩, ⟨8, 9⟩, ⟨7, 9⟩, ⟨6, 9⟩, ⟨5, 9⟩] : List Vector2) ∧
    ∃ g', Game.Update false 1001 1001 coincideState = .ok g' ∧
      g'.foodEatenCount = 5 + 1 ∧ g'.score = 5 + 1 + 90 ∧
      g'.explosiveFood.isActive = false :=
  have h := explosive_food_stays_free false coincideState coincideState_reachable rfl
  have ht := h.2.2 1001 1001 ⟨11, 9⟩ [⟨10, 9⟩, ⟨9, 9⟩, ⟨8, 9⟩, ⟨7, 9⟩, ⟨6, 9⟩, ⟨5, 9⟩]
    rfl rfl rfl rfl (by decide)
  match ht.2 ⟨3, 4⟩ [] rfl with
  | ⟨g', hg'⟩ => ⟨h.1.1, h.1.2.1, g', hg', (ht.1 g' hg').1, (ht.1 g' hg').2.1, (ht.1 g' hg').2.2.1⟩

/-! ## C21: the body is never empty -/

theorem Update_body_length (isHardMode : Bool) (tUpdate tSpawn : Int) (g g' : Game)
    (hlen : 3 ≤ g.snake.body.length) (h : g.Update isHardMode tUpdate tSpawn = .ok g') :
    3 ≤ g'.snake.body.length := by
  cases hrun : g.running with
  | false =>
    rw [Update_not_running isHardMode tUpdate tSpawn g hrun] at h
    cases h
    exact hlen
  | true =>
    obtain ⟨snake, g3, g4, g5, h1, h3, h4, h5, h6⟩ :=
      Update_ok_inv isHardMode tUpdate tSpawn g g' hrun h
    obtain ⟨head, tail, hb0, _, _, hsb⟩ := Snake_Update_ok_inv g.snake snake h1
    have hb3 := CheckCollisionWithFood_body tSpawn _ g3 h3
    have hb4 := CheckCollisionWithExplosiveFood_body g3 g4 h4
    have hbody4 : g4.snake.body = _ :: _ := hb4.1.trans (hb3.1.trans hsb)
    have h56 : AfterGameOvers g4 g' :=
      AfterGameOvers_trans g4 g5 g' (CheckCollisionWithEdges_after isHardMode g4 g5 _ _ hbody4 h5)
        (CheckCollisionWithTail_after g5 g' h6)
    rcases AfterGameOvers_cases g4 g' h56 with rfl | ⟨g1, hst⟩
    · rw [hbody4]
      by_cases ha : g.snake.addSegment = true
      · simp only [ha, if_true, List.length_cons]
        omega
      · rw [if_neg ha]
        simp only [List.length_cons, List.length_dropLast]
        omega
    · rw [hst.body]
      decide

theorem resetScores_eq (g : Game) :
    g.resetScores = { g with score := 0, highestscore := 0, foodEatenCount := 0,
                             highestscoreFile :=
                               if g.fileWritable = true then 0 :: g.highestscoreFile
                               else g.highestscoreFile } := by
  cases hw : g.fileWritable <;> simp [Game.resetScores, Game.savehighestscore, hw]

theorem loadhighestscore_snake (g : Game) : g.loadhighestscore.snake = g.snake := by
  unfold Game.loadhighestscore
  split
  · split <;> rfl
  · rfl

theorem FromInitial_body_length (g : Game) (h : FromInitial g) : 3 ≤ g.snake.body.length := by
  induction h with
  | initial file writable rng g hnew =>
    unfold Game.new at hnew
    split at hnew
    · cases hnew
    · simp only [Except.ok.injEq] at hnew
      subst hnew
      have h3 : 3 ≤ Snake.new.body.length := by decide
      rw [loadhighestscore_snake]
      exact h3
  | reset g _ _ =>
    have h3 : 3 ≤ Snake.startBody.length := by decide
    exact h3
  | tick g g' isHardMode tUpdate tSpawn _ hu ih =>
    exact Update_body_length isHardMode tUpdate tSpawn g g' ih hu
  | gameOver g g' _ hgo _ =>
    rw [(GameOver_ok_state g g' hgo).body]
    decide
  | turn g keys allowMove _ ih => exact ih
  | initializeHardMode g g' _ hinit ih =>
    unfold Game.InitializeHardMode at hinit
    simp only at hinit
    split at hinit
    · cases hinit
    · simp only [Except.ok.injEq] at hinit
      subst hinit
      exact ih
  | disableHardMode g g' _ hdis ih =>
    unfold Game.DisableHardMode at hdis
    simp only at hdis
    split at hdis
    · cases hdis
    · simp only [Except.ok.injEq] at hdis
      subst hdis
      exact ih
  | resetScores g _ ih =>
    rw [resetScores_eq]
    exact ih
  | resetCurrentScore g _ ih => exact ih
  | placeFood g position rest _ _ ih => exact ih
  | eat g _ ih => exact ih
  | flags g running gameovermenu _ ih => exact ih
  | environment g writable _ ih => exact ih

/-- C21: in every state reachable from the initial `Game` state by
`Snake::Reset`, `Game::Update` ticks, `Game::GameOver` and direction input
(and by the other calls `main` makes on the game), the snake body has at
least 3 cells, so it has a head `body[0]`; hence `Snake::Update` returns, and
neither the collision checks (with the `pop_front` of
`CheckCollisionWithTail`) nor a whole tick ever read an empty body. -/
theorem body_never_empty (g : Game) (h : FromInitial g) :
    3 ≤ g.snake.body.length ∧ 1 ≤ g.snake.body.length ∧
    (∃ head tail, g.snake.body = head :: tail) ∧
    (∃ s', g.snake.Update = .ok s') ∧
    (∀ now, g.CheckCollisionWithFood now ≠ .error Fault.emptyBody) ∧
    g.CheckCollisionWithExplosiveFood ≠ .error Fault.emptyBody ∧
    (∀ isHardMode, g.CheckCollisionWithEdges isHardMode ≠ .error Fault.emptyBody) ∧
    g.CheckCollisionWithTail ≠ .error Fault.emptyBody ∧
    (∀ isHardMode tUpdate tSpawn,
      g.Update isHardMode tUpdate tSpawn ≠ .error Fault.emptyBody) := by
  have hlen := FromInitial_body_length g h
  obtain ⟨head, tail, hbody⟩ : ∃ head tail, g.snake.body = head :: tail := by
    cases hb : g.snake.body with
    | nil => rw [hb] at hlen; simp at hlen
    | cons head tail => exact ⟨head, tail, rfl⟩
  have hne : Fault.emptyBody ≠ Fault.noSample := by decide
  refine ⟨hlen, by omega, ⟨head, tail, hbody⟩, ?_, ?_, ?_, ?_, ?_, ?_⟩
  · cases hu : g.snake.Update with
    | error f => simp [Snake.Update, hbody] at hu; split at hu <;> cases hu
    | ok s' => exact ⟨s', rfl⟩
  · exact fun now herr => hne (CheckCollisionWithFood_error now g head tail hbody _ herr)
  · exact CheckCollisionWithExplosiveFood_error g head tail hbody _
  · exact fun isHardMode herr =>
      hne (CheckCollisionWithEdges_error isHardMode g head tail hbody _ herr)
  · exact fun herr => hne (CheckCollisionWithTail_error g head tail hbody _ herr)
  · exact fun isHardMode tUpdate tSpawn herr =>
      hne (Update_error isHardMode tUpdate tSpawn g head tail hbody _ herr)

/-- Witness of C21: the initial game, after a game over and one more tick
request. -/
theorem body_never_empty_witness :
    3 ≤ ([⟨6, 9⟩, ⟨5, 9⟩, ⟨4, 9⟩] : List Vector2).length ∧
    ∃ s', Snake.Update { body := [⟨6, 9⟩, ⟨5, 9⟩, ⟨4, 9⟩], direction := ⟨1, 0⟩,
                         addSegment := false } = .ok s' :=
  have h := body_never_empty
    { snake := { body := [⟨6, 9⟩, ⟨5, 9⟩, ⟨4, 9⟩], direction := ⟨1, 0⟩, addSegment := false },
      food := ⟨⟨12, 12⟩, none⟩, explosiveFood := ExplosiveFood.new none, hardMap := none,
      running := false, score := 0, highestscore := 7, foodEatenCount := 0,
      gameovermenu := true, rng := [], highestscoreFile := [7], fileWritable := true }
    (FromInitial.gameOver _ _ (FromInitial.initial [7] true [10, 10, 12, 12] _ rfl) rfl)
  ⟨h.1, h.2.2.2.1⟩

/-! ## C22: the cells of the hard-mode map -/

theorem HardModeMap_point_eq_rect (p : Vector2) :
    (HardModeMap cellSize).CheckCollision ⟨offset + p.x * cellSize, offset + p.y * cellSize⟩
      = (HardModeMap cellSize).CheckCollisionWithRect (headRect p) := rfl

theorem HardModeMap_rect_iff (x y : Int) :
    (HardModeMap cellSize).CheckCollisionWithRect (headRect ⟨x, y⟩) = true ↔ wallCell x y := by
  simp only [HardModeMap, HardModeMap.LoadWalls, MapBase.CheckCollisionWithRect,
    Wall.CheckCollision, CheckCollisionRecs, headRect, offset, cellSize, wallCell,
    List.any_cons, List.any_nil, Bool.or_false, Bool.or_eq_true, Bool.and_eq_true,
    decide_eq_true_eq]
  omega

/-- C22: with the default constants (offset 75, cellSize = blockSize = 30,
cellCount 25), for every cell (x, y), in particular every grid cell with
0 <= x, y < 25, the point query
`MapBase::CheckCollision` at (offset + x*cellSize, offset + y*cellSize) used
for food placement and the rectangle query `CheckCollisionWithRect` on the
head rectangle of the cell used for the fatal check give the same answer; the
answer is true exactly for the cells with (x = 3 and 1 <= y <= 10),
(3 <= x <= 10 and y = 12), (x = 19 and 1 <= y <= 10) or
(11 <= x <= 18 and y = 18); none of the reset snake's cells is blocked. -/
theorem hard_map_cells (x y : Int) :
    (offset = 75 ∧ cellSize = 30 ∧ cellCount = 25 ∧ (HardModeMap cellSize).blockSize = 30) ∧
    (HardModeMap cellSize).CheckCollision ⟨offset + x * cellSize, offset + y * cellSize⟩
      = (HardModeMap cellSize).CheckCollisionWithRect (headRect ⟨x, y⟩) ∧
    ((HardModeMap cellSize).CheckCollisionWithRect (headRect ⟨x, y⟩) = true ↔
      ((x = 3 ∧ 1 ≤ y ∧ y ≤ 10) ∨ (3 ≤ x ∧ x ≤ 10 ∧ y = 12) ∨
       (x = 19 ∧ 1 ≤ y ∧ y ≤ 10) ∨ (11 ≤ x ∧ x ≤ 18 ∧ y = 18))) ∧
    (∀ c ∈ Snake.startBody,
      (HardModeMap cellSize).CheckCollision ⟨offset + c.x * cellSize, offset + c.y * cellSize⟩
        = false ∧
      (HardModeMap cellSize).CheckCollisionWithRect (headRect c) = false) := by
  refine ⟨⟨rfl, rfl, rfl, rfl⟩, HardModeMap_point_eq_rect ⟨x, y⟩, HardModeMap_rect_iff x y, ?_⟩
  intro c hc
  have hfalse : (HardModeMap cellSize).CheckCollisionWithRect (headRect c) = false := by
    simp only [Snake.startBody, List.mem_cons, List.mem_singleton, List.not_mem_nil,
      or_false] at hc
    rcases hc with rfl | rfl | rfl <;> decide
  exact ⟨(HardModeMap_point_eq_rect c).trans hfalse, hfalse⟩

/-- Witness of C22: the cell (10,12) is the right end of the upper horizontal
wall; its neighbour (11,12) is free. -/
theorem hard_map_cells_witness :
    (HardModeMap cellSize).CheckCollisionWithRect (headRect ⟨10, 12⟩) = true ∧
    (HardModeMap cellSize).CheckCollision ⟨offset + 11 * cellSize, offset + 12 * cellSize⟩
      = false :=
  ⟨((hard_map_cells 10 12).2.2.1).2 (Or.inr (Or.inl ⟨by decide, by decide, rfl⟩)),
    by decide⟩

/-! ## C23: resetting the scores -/

/-- C23, as stated, fails: when the high-score file cannot be opened for
writing, `Game::resetScores` zeroes `highestscore` but writes nothing: the
stored 9 stays. -/
theorem resetScores_unwritable :
    unwritableScoreState.resetScores.highestscore = 0 ∧
    unwritableScoreState.resetScores.highestscoreFile = [9] ∧
    unwritableScoreState.resetScores.highestscoreFile
      ≠ 0 :: unwritableScoreState.highestscoreFile :=
  ⟨rfl, rfl, by decide⟩

/-- C23 amended: for every game state, `Game::resetScores` sets `score`,
`foodEatenCount` and `highestscore` to 0 and, when the high-score file opens
for writing, writes 0 to it whatever the previous high score was (when it
does not open, nothing is written); nothing else changes.
`Game::resetCurrentScore` sets only `score` and `foodEatenCount` to 0 and
leaves `highestscore` and the file as they were. The Exit action of the menu
is `resetScores`, and every return to the main menu runs `resetScores` before
`DisableHardMode`, which keeps the three zeros and the file. -/
theorem resetScores_spec (g : Game) :
    g.resetScores = { g with score := 0, highestscore := 0, foodEatenCount := 0,
                             highestscoreFile :=
                               if g.fileWritable = true then 0 :: g.highestscoreFile
                               else g.highestscoreFile } ∧
    g.resetCurrentScore = { g with score := 0, foodEatenCount := 0 } ∧
    g.resetCurrentScore.highestscore = g.highestscore ∧
    g.resetCurrentScore.highestscoreFile = g.highestscoreFile ∧
    g.exitAction = g.resetScores ∧
    (∀ g', g.backToMenu = .ok g' →
      g'.score = 0 ∧ g'.foodEatenCount = 0 ∧ g'.highestscore = 0 ∧
      g'.highestscoreFile =
        if g.fileWritable = true then 0 :: g.highestscoreFile else g.highestscoreFile) := by
  refine ⟨resetScores_eq g, rfl, rfl, rfl, rfl, ?_⟩
  intro g' h
  unfold Game.backToMenu Game.DisableHardMode at h
  simp only at h
  split at h
  · cases h
  · simp only [Except.ok.injEq] at h
    subst h
    rw [resetScores_eq]
    exact ⟨rfl, rfl, rfl, rfl⟩

/-- Witness of C23 amended: with a writable file a stored high score of 9 is
overwritten with 0 by `resetScores` and kept by `resetCurrentScore`. -/
theorem resetScores_spec_witness :
    storedScoreState.resetScores.highestscoreFile = [0, 9] ∧
    storedScoreState.resetScores.highestscore = 0 ∧
    storedScoreState.resetCurrentScore.highestscore = 9 :=
  have h := resetScores_spec storedScoreState
  ⟨congrArg Game.highestscoreFile h.1, congrArg Game.highestscore h.1, h.2.2.1⟩

end RetroSnake
